import Mathlib

/-!
# Restaurant POS: persistence and order lifecycle

A shallow embedding of the persistence layer of `app.go` (connection selection,
schema bootstrap, the settings store and the order repository), followed by the
properties established about it.

Conventions of the embedding.

* The Go receiver `a *App` is passed in and returned explicitly.
* A Go `error` result is an `Option Error` (`none` is `nil`).
* The store behind `*sql.DB` is explicit state carried by the handle.  Every call
  into `database/sql` takes the outcome the driver reports for it as an argument
  (`none`: the statement runs, `some e`: it fails with `e` and changes nothing),
  and additionally fails by itself when the table it names does not exist or a
  uniqueness constraint is violated.
* `float64` values are only stored, copied and compared here, never computed
  with; they are represented by rationals.
* Wall-clock readings (`time.Now()`, `datetime('now','localtime')`) are inputs.
-/

namespace RestaurantPos

/-! ## Values -/

/-- Go `float64`, used for rates and amounts that are moved around unchanged. -/
abbrev Float64 := Rat

/-- Textual timestamp as stored in a TIMESTAMP column. -/
abbrev Timestamp := String

/-- The seven tables of `createTables`, in the order of its `queries` slice. -/
inductive TableName
  | settings
  | categories
  | menu_items
  | orders
  | order_items
  | tables
  | payments
deriving DecidableEq, Repr

/-- Go `error` values that cross the persistence layer. -/
inductive Error
  /-- Value of `fmt.Errorf("database not initialized")`. -/
  | notInitialized
  /-- the statement names a table the store does not have -/
  | noSuchTable (t : TableName)
  /-- a UNIQUE constraint rejected the write -/
  | uniqueViolation
  /-- no row id is left for an AUTOINCREMENT insert (SQLITE_FULL) -/
  | databaseFull
  /-- any other failure reported by the driver (unreachable host, lock, I/O) -/
  | driver (code : Nat)
deriving DecidableEq, Repr

/-- The `Settings` struct. -/
structure Settings where
  RestaurantName : String
  RestaurantNameAr : String
  Currency : String
  TaxRate : Float64
  ServiceChargeRate : Float64
  Language : String
  ThemeColor : String
  PrintReceipt : Bool
  PrintKitchen : Bool
deriving DecidableEq

/-- The Go zero value of `Settings`. -/
def Settings.zero : Settings :=
  { RestaurantName := "", RestaurantNameAr := "", Currency := "",
    TaxRate := 0, ServiceChargeRate := 0, Language := "", ThemeColor := "",
    PrintReceipt := false, PrintKitchen := false }

/-! ## The store -/

/-- A row of `settings (key TEXT UNIQUE, value TEXT, updated_at TIMESTAMP)`.
Every column is nullable; `none` is SQL NULL.  The surrogate `id` column is not
read by any statement of the program and is left out. -/
structure SettingRow where
  key : Option String
  value : Option String
  updated_at : Option Timestamp
deriving DecidableEq

/-- A row of the `orders` table, one field per column of its CREATE TABLE. -/
structure OrderRow where
  id : Int
  order_number : String
  table_id : Option Int
  type : Option String
  status : Option String
  subtotal : Option Float64
  tax_amount : Option Float64
  total : Option Float64
  paid_amount : Option Float64
  payment_status : Option String
  customer_name : Option String
  customer_phone : Option String
  customer_address : Option String
  notes : Option String
  kitchen_notes : Option String
  created_at : Option Timestamp
  completed_at : Option Timestamp
  cancelled_at : Option Timestamp
deriving DecidableEq

/-- Contents of one database.  `settings` and `orders` hold their rows in rowid
order (`none`: the table does not exist); the remaining tables are never read
or written by the functions embedded here, so only their existence is kept.
`ordersSeq` is the AUTOINCREMENT high-water mark of `orders`. -/
structure Store where
  settings : Option (List SettingRow)
  categories : Bool
  menu_items : Bool
  orders : Option (List OrderRow)
  ordersSeq : Int
  order_items : Bool
  tables : Bool
  payments : Bool
deriving DecidableEq

/-- A database file that has just been created. -/
def Store.empty : Store :=
  { settings := none, categories := false, menu_items := false, orders := none,
    ordersSeq := 0, order_items := false, tables := false, payments := false }

/-- The statements the program sends, with their bound parameters.  A value of
`datetime('now','localtime')` is carried as the argument `now`. -/
inductive Stmt
  /-- Statement `CREATE TABLE IF NOT EXISTS t (...)`. -/
  | createTable (t : TableName)
  /-- Statement `INSERT OR REPLACE INTO settings (key, value, updated_at) VALUES (?, ?, ?)`. -/
  | upsertSetting (key value : String) (updated_at : Timestamp)
  /-- Statement `INSERT INTO orders (order_number, status, created_at) VALUES (?, ?, now)`. -/
  | insertOrder (order_number status : String) (now : Timestamp)
  /-- Statement `UPDATE orders SET status = ? WHERE id = ?`. -/
  | setOrderStatus (status : String) (id : Int)
  /-- Statement `UPDATE orders SET completed_at = now WHERE id = ?`. -/
  | stampCompleted (now : Timestamp) (id : Int)
deriving DecidableEq

/-- What `sql.Result` exposes. -/
structure ExecResult where
  lastInsertId : Int
  rowsAffected : Nat
deriving DecidableEq

/-- Insert-or-replace on the unique `key`: conflicting rows are deleted and the
new row is appended with a fresh rowid. -/
def upsert (rows : List SettingRow) (key value : String) (ts : Timestamp) :
    List SettingRow :=
  rows.filter (fun r => r.key ≠ some key) ++
    [{ key := some key, value := some value, updated_at := some ts }]

/-- The row `INSERT INTO orders (order_number, status, created_at)` produces:
the other columns take their declared DEFAULT, or NULL when none is declared. -/
def newOrderRow (id : Int) (order_number status : String) (now : Timestamp) :
    OrderRow :=
  { id := id, order_number := order_number, table_id := none,
    type := some "dine_in", status := some status,
    subtotal := some 0, tax_amount := some 0, total := some 0,
    paid_amount := some 0, payment_status := some "unpaid",
    customer_name := none, customer_phone := none, customer_address := none,
    notes := none, kitchen_notes := none,
    created_at := some now, completed_at := none, cancelled_at := none }

/-- The largest value of a row id, a signed 64-bit integer. -/
def maxRowId : Int := 9223372036854775807

/-- The id AUTOINCREMENT hands out next: one more than the largest id ever used.
The insert is refused when that exceeds `maxRowId`. -/
def nextOrderId (rows : List OrderRow) (seq : Int) : Int :=
  (rows.foldl (fun m r => max m r.id) seq) + 1

/-- Effect of `UPDATE orders SET status = ? WHERE id = ?` on the rows. -/
def updateStatusWhere (rows : List OrderRow) (status : String) (id : Int) : List OrderRow :=
  rows.map (fun r => if r.id = id then { r with status := some status } else r)

/-- Effect of `UPDATE orders SET completed_at = now WHERE id = ?` on the rows. -/
def updateCompletedAtWhere (rows : List OrderRow) (now : Timestamp) (id : Int) :
    List OrderRow :=
  rows.map (fun r => if r.id = id then { r with completed_at := some now } else r)

/-- Effect of `CREATE TABLE IF NOT EXISTS`: an existing table is left as it is. -/
def Store.createTable (s : Store) : TableName → Store
  | .settings => { s with settings := some (s.settings.getD []) }
  | .categories => { s with categories := true }
  | .menu_items => { s with menu_items := true }
  | .orders => { s with orders := some (s.orders.getD []) }
  | .order_items => { s with order_items := true }
  | .tables => { s with tables := true }
  | .payments => { s with payments := true }

/-- Effect of one statement on the store when the driver reports no failure. -/
def Store.exec (s : Store) : Stmt → Except Error (Store × ExecResult)
  | .createTable t => .ok (s.createTable t, { lastInsertId := 0, rowsAffected := 0 })
  | .upsertSetting key value ts =>
    match s.settings with
    | none => .error (.noSuchTable .settings)
    | some rows =>
      .ok ({ s with settings := some (upsert rows key value ts) },
           { lastInsertId := 0, rowsAffected := 1 })
  | .insertOrder number status now =>
    match s.orders with
    | none => .error (.noSuchTable .orders)
    | some rows =>
      if maxRowId < nextOrderId rows s.ordersSeq then .error .databaseFull
      else if rows.any (fun r => r.order_number == number) then .error .uniqueViolation
      else
        let id := nextOrderId rows s.ordersSeq
        .ok ({ s with orders := some (rows ++ [newOrderRow id number status now]),
                      ordersSeq := id },
             { lastInsertId := id, rowsAffected := 1 })
  | .setOrderStatus status id =>
    match s.orders with
    | none => .error (.noSuchTable .orders)
    | some rows =>
      .ok ({ s with orders := some (updateStatusWhere rows status id) },
           { lastInsertId := 0, rowsAffected := (rows.filter (fun r => r.id = id)).length })
  | .stampCompleted now id =>
    match s.orders with
    | none => .error (.noSuchTable .orders)
    | some rows =>
      .ok ({ s with orders := some (updateCompletedAtWhere rows now id) },
           { lastInsertId := 0, rowsAffected := (rows.filter (fun r => r.id = id)).length })

/-! ## Handles and transactions -/

/-- The two `sql.Open` driver names. -/
inductive Driver
  | mysql
  | sqlite3
deriving DecidableEq, Repr

/-- An open `*sql.DB`: which driver it belongs to and the state of its store. -/
structure DB where
  driverName : Driver
  store : Store
deriving DecidableEq

/-- Method `db.Exec`: `fault` is the failure the driver reports for this call, if any.
A failed statement leaves the store as it was. -/
def DB.Exec (db : DB) (fault : Option Error) (q : Stmt) : DB × Except Error ExecResult :=
  match fault with
  | some e => (db, .error e)
  | none =>
    match db.store.exec q with
    | .error e => (db, .error e)
    | .ok (s, r) => ({ db with store := s }, .ok r)

/-- An open `*sql.Tx`: the handle as it was at `Begin`, and the uncommitted
working state the transaction's statements act on. -/
structure Tx where
  db : DB
  work : Store
deriving DecidableEq

/-- Method `db.Begin`. -/
def DB.Begin (db : DB) (fault : Option Error) : Except Error Tx :=
  match fault with
  | some e => .error e
  | none => .ok { db := db, work := db.store }

/-- Method `tx.Exec`: runs on the working state only. -/
def Tx.Exec (tx : Tx) (fault : Option Error) (q : Stmt) : Tx × Except Error ExecResult :=
  match fault with
  | some e => (tx, .error e)
  | none =>
    match tx.work.exec q with
    | .error e => (tx, .error e)
    | .ok (s, r) => ({ tx with work := s }, .ok r)

/-- Method `tx.Rollback`: the working state is dropped. -/
def Tx.Rollback (tx : Tx) : DB := tx.db

/-- Method `tx.Commit`: the working state becomes the store; a commit that fails is
rolled back by the driver. -/
def Tx.Commit (tx : Tx) (fault : Option Error) : DB × Option Error :=
  match fault with
  | some e => (tx.db, some e)
  | none => ({ tx.db with store := tx.work }, none)

/-! ## The application -/

/-- The `App` struct (`ctx` carries no data used here). -/
structure App where
  db : Option DB
  settings : Settings
  currentLang : String
deriving DecidableEq

/-- Constructor `NewApp`: every field at its zero value. -/
def NewApp : App := { db := none, settings := Settings.zero, currentLang := "" }

/-- Method `GetSettings`. -/
def GetSettings (a : App) : Settings := a.settings

/-- Method `GetLanguage`. -/
def GetLanguage (a : App) : String := a.currentLang

/-- Method `SetLanguage`. -/
def SetLanguage (a : App) (lang : String) : App :=
  { a with currentLang := lang, settings := { a.settings with Language := lang } }

/-- Inputs of one `saveSettings` call: the failure reported for `Begin`, for the
`k`-th `tx.Exec` (counted from 0) and for `Commit`, the `time.Now()` reading
taken for the `k`-th write, and the driver's rendering of a `float64` parameter
into the TEXT column. -/
structure SaveEnv where
  beginErr : Option Error
  execErr : Nat → Option Error
  commitErr : Option Error
  now : Nat → Timestamp
  formatFloat : Float64 → String

/-- A `bool` parameter is bound as the integer 1 or 0 and stored as its text. -/
def formatBool (b : Bool) : String := if b then "1" else "0"

/-- Method `saveSettings`: nine upserts inside one transaction. -/
def saveSettings (env : SaveEnv) (a : App) : App × Option Error :=
  match a.db with
  | none => (a, some .notInitialized)
  | some db =>
  match db.Begin env.beginErr with
  | .error err => (a, some err)
  | .ok tx =>
  match tx.Exec (env.execErr 0)
      (.upsertSetting "restaurant_name" a.settings.RestaurantName (env.now 0)) with
  | (tx, .error err) => ({ a with db := some tx.Rollback }, some err)
  | (tx, .ok _) =>
  match tx.Exec (env.execErr 1)
      (.upsertSetting "restaurant_name_ar" a.settings.RestaurantNameAr (env.now 1)) with
  | (tx, .error err) => ({ a with db := some tx.Rollback }, some err)
  | (tx, .ok _) =>
  match tx.Exec (env.execErr 2)
      (.upsertSetting "currency" a.settings.Currency (env.now 2)) with
  | (tx, .error err) => ({ a with db := some tx.Rollback }, some err)
  | (tx, .ok _) =>
  match tx.Exec (env.execErr 3)
      (.upsertSetting "tax_rate" (env.formatFloat a.settings.TaxRate) (env.now 3)) with
  | (tx, .error err) => ({ a with db := some tx.Rollback }, some err)
  | (tx, .ok _) =>
  match tx.Exec (env.execErr 4)
      (.upsertSetting "service_charge_rate"
        (env.formatFloat a.settings.ServiceChargeRate) (env.now 4)) with
  | (tx, .error err) => ({ a with db := some tx.Rollback }, some err)
  | (tx, .ok _) =>
  match tx.Exec (env.execErr 5)
      (.upsertSetting "language" a.settings.Language (env.now 5)) with
  | (tx, .error err) => ({ a with db := some tx.Rollback }, some err)
  | (tx, .ok _) =>
  match tx.Exec (env.execErr 6)
      (.upsertSetting "theme_color" a.settings.ThemeColor (env.now 6)) with
  | (tx, .error err) => ({ a with db := some tx.Rollback }, some err)
  | (tx, .ok _) =>
  match tx.Exec (env.execErr 7)
      (.upsertSetting "print_receipt" (formatBool a.settings.PrintReceipt) (env.now 7)) with
  | (tx, .error err) => ({ a with db := some tx.Rollback }, some err)
  | (tx, .ok _) =>
  match tx.Exec (env.execErr 8)
      (.upsertSetting "print_kitchen" (formatBool a.settings.PrintKitchen) (env.now 8)) with
  | (tx, .error err) => ({ a with db := some tx.Rollback }, some err)
  | (tx, .ok _) =>
  match tx.Commit env.commitErr with
  | (db, err) => ({ a with db := some db }, err)

/-- Method `UpdateSettings`: the in-memory record and language are replaced
first, then the record is saved. -/
def UpdateSettings (env : SaveEnv) (a : App) (settings : Settings) : App × Option Error :=
  let a := { a with settings := settings }
  let a := { a with currentLang := settings.Language }
  saveSettings env a

/-- Query `SELECT key, value FROM settings` through `db.Query`: the rows in
rowid order, or the failure. -/
def DB.QuerySettings (db : DB) (fault : Option Error) : Except Error (List SettingRow) :=
  match fault with
  | some e => .error e
  | none =>
    match db.store.settings with
    | none => .error (.noSuchTable .settings)
    | some rows => .ok rows

/-- One iteration of the `rows.Next()` loop of `loadSettings`: `rows.Scan` into
two Go strings fails on a NULL column, and the row is then skipped. -/
def scanSetting (a : App) (r : SettingRow) : App :=
  match r.key, r.value with
  | some key, some value =>
    if key = "restaurant_name" then
      { a with settings := { a.settings with RestaurantName := value } }
    else if key = "restaurant_name_ar" then
      { a with settings := { a.settings with RestaurantNameAr := value } }
    else if key = "currency" then
      { a with settings := { a.settings with Currency := value } }
    else if key = "language" then
      { a with settings := { a.settings with Language := value }, currentLang := value }
    else if key = "theme_color" then
      { a with settings := { a.settings with ThemeColor := value } }
    else a
  | _, _ => a

/-- The literal `Settings` value that `loadSettings` installs. -/
def defaultSettings : Settings :=
  { RestaurantName := "مطعم", RestaurantNameAr := "مطعم", Currency := "ج.م",
    TaxRate := 0.14, ServiceChargeRate := 0.10, Language := "ar",
    ThemeColor := "#10b981", PrintReceipt := true, PrintKitchen := true }

/-- Method `loadSettings`; `queryErr` is the failure reported for the query. -/
def loadSettings (queryErr : Option Error) (a : App) : App :=
  match a.db with
  | none =>
    { a with settings :=
        { RestaurantName := "مطعم", RestaurantNameAr := "مطعم", Currency := "ج.م",
          TaxRate := 0.14, ServiceChargeRate := 0.10, Language := "ar",
          ThemeColor := "#10b981", PrintReceipt := true, PrintKitchen := true } }
  | some db =>
    match db.QuerySettings queryErr with
    | .error _ => a
    | .ok rows =>
      let a := rows.foldl scanSetting a
      if a.settings.RestaurantName = "" then
        { a with
          settings :=
            { a.settings with
              RestaurantName := "مطعم", RestaurantNameAr := "مطعم", Currency := "ج.م",
              TaxRate := 0.14, ServiceChargeRate := 0.10, Language := "ar",
              ThemeColor := "#10b981", PrintReceipt := true, PrintKitchen := true },
          currentLang := "ar" }
      else a

/-! ## Connection selection and schema bootstrap -/

/-- Calls into `database/sql` made while the connection is set up, in order. -/
inductive Call
  | sqlOpen (d : Driver)
  | ping (d : Driver)
  | exec (q : Stmt)
deriving DecidableEq

/-- Inputs of `initDatabase`: for each store the failure reported by `sql.Open`
and by `Ping` and the contents found there, and the failure reported for the
`k`-th statement (counted from 0) of `createTables`.  The source guards both
`sql.Open` calls, so both outcomes are inputs here; with the driver registered
by the blank import and the constant DSN, `sql.Open` of the primary does not
connect and reports no error, which the statements about the program take as
their hypothesis `mysqlOpenErr = none`. -/
structure InitEnv where
  mysqlOpenErr : Option Error
  mysqlPingErr : Option Error
  mysqlStore : Store
  sqliteOpenErr : Option Error
  sqlitePingErr : Option Error
  sqliteStore : Store
  schemaErr : Nat → Option Error

/-- Function `sql.Open`. -/
def sqlOpen (fault : Option Error) (d : Driver) (s : Store) : Except Error DB :=
  match fault with
  | some e => .error e
  | none => .ok { driverName := d, store := s }

/-- Method `db.Ping`. -/
def DB.Ping (_db : DB) (fault : Option Error) : Option Error := fault

/-- The `queries` slice of `createTables`. -/
def queries : List Stmt :=
  [.createTable .settings, .createTable .categories, .createTable .menu_items,
   .createTable .orders, .createTable .order_items, .createTable .tables,
   .createTable .payments]

/-- The `for _, query := range queries` loop of `createTables`, from the `k`-th
statement on: the first failure ends it. -/
def createTablesLoop (schemaErr : Nat → Option Error) :
    DB → Nat → List Stmt → DB × Option Error × List Call
  | db, _, [] => (db, none, [])
  | db, k, query :: rest =>
    match db.Exec (schemaErr k) query with
    | (db, .error err) => (db, some err, [.exec query])
    | (db, .ok _) =>
      match createTablesLoop schemaErr db (k + 1) rest with
      | (db, err, calls) => (db, err, .exec query :: calls)

/-- Method `createTables`; `none` is the panic of `a.db.Exec` on a nil handle. -/
def createTables (schemaErr : Nat → Option Error) (a : App) :
    Option (App × Option Error × List Call) :=
  match a.db with
  | none => none
  | some db =>
    match createTablesLoop schemaErr db 0 queries with
    | (db, err, calls) => some ({ a with db := some db }, err, calls)

/-- Method `initSQLite`. -/
def initSQLite (env : InitEnv) (a : App) : Option (App × Option Error × List Call) :=
  match sqlOpen env.sqliteOpenErr .sqlite3 env.sqliteStore with
  | .error err => some (a, some err, [.sqlOpen .sqlite3])
  | .ok db =>
    match db.Ping env.sqlitePingErr with
    | some err => some (a, some err, [.sqlOpen .sqlite3, .ping .sqlite3])
    | none =>
      let a := { a with db := some db }
      match createTables env.schemaErr a with
      | none => none
      | some (a, some err, calls) =>
        some (a, some err, [.sqlOpen .sqlite3, .ping .sqlite3] ++ calls)
      | some (a, none, calls) =>
        some (a, none, [.sqlOpen .sqlite3, .ping .sqlite3] ++ calls)

/-- Method `initDatabase`. -/
def initDatabase (env : InitEnv) (a : App) : Option (App × Option Error × List Call) :=
  match sqlOpen env.mysqlOpenErr .mysql env.mysqlStore with
  | .error err => some (a, some err, [.sqlOpen .mysql])
  | .ok db =>
    match db.Ping env.mysqlPingErr with
    | some _ =>
      match initSQLite env a with
      | none => none
      | some (a, err, calls) => some (a, err, [.sqlOpen .mysql, .ping .mysql] ++ calls)
    | none => some ({ a with db := some db }, none, [.sqlOpen .mysql, .ping .mysql])

/-- Method `startup`: the language is set to "ar", the connection is selected
(its error is only printed) and the settings are loaded.  `none` is a panic. -/
def startup (env : InitEnv) (queryErr : Option Error) (a : App) : Option App :=
  let a := { a with currentLang := "ar" }
  match initDatabase env a with
  | none => none
  | some (a, _, _) => some (loadSettings queryErr a)

/-! ## Orders -/

/-- The `error` half of a `(Result, error)` return. -/
def errOf {α : Type} : Except Error α → Option Error
  | .error e => some e
  | .ok _ => none

/-- Inputs of `CreateOrder`: the reading `time.Now().Unix()`, the value of
`datetime('now','localtime')` and the failure reported for the insert. -/
structure CreateEnv where
  unixNow : Int
  sqlNow : Timestamp
  execErr : Option Error

/-- Method `CreateOrder`; `none` is the panic on a nil handle. -/
def CreateOrder (env : CreateEnv) (a : App) (_orderData : String) :
    Option (App × Int × Option Error) :=
  match a.db with
  | none => none
  | some db =>
    let orderNumber := "ORD-" ++ toString env.unixNow
    match db.Exec env.execErr (.insertOrder orderNumber "pending" env.sqlNow) with
    | (db, .error err) => some ({ a with db := some db }, 0, some err)
    | (db, .ok result) => some ({ a with db := some db }, result.lastInsertId, none)

/-- Inputs of `UpdateOrderStatus`: the failure reported for the status write and
for the `completed_at` write, and the value of `datetime('now','localtime')`. -/
structure UpdateEnv where
  statusErr : Option Error
  stampErr : Option Error
  sqlNow : Timestamp

/-- Method `UpdateOrderStatus`; `none` is the panic on a nil handle. -/
def UpdateOrderStatus (env : UpdateEnv) (a : App) (orderID : Int) (status : String) :
    Option (App × Option Error) :=
  match a.db with
  | none => none
  | some db =>
    match db.Exec env.statusErr (.setOrderStatus status orderID) with
    | (db, res) =>
      let err := errOf res
      if status = "completed" then
        match db.Exec env.stampErr (.stampCompleted env.sqlNow orderID) with
        | (db, res) =>
          let err := errOf res
          some ({ a with db := some db }, err)
      else some ({ a with db := some db }, err)

/-- The `OrderItem` struct. -/
structure OrderItem where
  ID : Int
  OrderID : Int
  MenuItemID : Int
  MenuItemName : String
  Quantity : Int
  UnitPrice : Float64
  Status : String
  Notes : String
  CreatedAt : String
deriving DecidableEq

/-- The `Order` struct.  The two pointer fields `TableID *int` and
`CompletedAt *string` are options; every other field is a plain value.  The Go
field `Type` is written `Type_`. -/
structure Order where
  ID : Int
  OrderNumber : String
  TableID : Option Int
  Type_ : String
  Status : String
  Subtotal : Float64
  TaxAmount : Float64
  Total : Float64
  PaidAmount : Float64
  PaymentStatus : String
  CustomerName : String
  CustomerPhone : String
  CustomerAddress : String
  Notes : String
  KitchenNotes : String
  CreatedAt : String
  CompletedAt : Option String
  Items : List OrderItem
deriving DecidableEq

/-- Inputs of `GetOrders`: the failure reported for the query, the SQL function
`datetime(x, 'localtime')` on a non-NULL `x` (NULL when `x` is not a time
value), and the text a non-NULL value of the TIMESTAMP column `completed_at`
becomes in a `*string`: the driver parses such a column into a time value, and
the scan renders that in RFC 3339 form. -/
structure ListEnv where
  queryErr : Option Error
  localtime : Timestamp → Option Timestamp
  renderTime : Timestamp → String

/-- Text comparison of the BINARY collation: byte by byte, which on UTF-8 text
is code point by code point; a proper prefix is smaller. -/
def textLt : List Char → List Char → Bool
  | _, [] => false
  | [], _ :: _ => true
  | a :: as, b :: bs =>
    if a.toNat < b.toNat then true
    else if b.toNat < a.toNat then false
    else textLt as bs

/-- Comparison behind `ORDER BY created_at DESC`: `x` may precede `y` when `x`
is not smaller than `y`; NULL is smaller than every text. -/
def createdAtGe : Option Timestamp → Option Timestamp → Bool
  | _, none => true
  | none, some _ => false
  | some x, some y => !textLt x.data y.data

/-- The query of `GetOrders` through `db.Query`: every row with `created_at`
replaced by `datetime(created_at, 'localtime')`, ordered by that value,
descending, and cut to the first 50.  The result rows are kept as `OrderRow`s;
the column `cancelled_at` is not selected and not read by the scan. -/
def DB.QueryOrders (db : DB) (fault : Option Error)
    (localtime : Timestamp → Option Timestamp) : Except Error (List OrderRow) :=
  match fault with
  | some e => .error e
  | none =>
    match db.store.orders with
    | none => .error (.noSuchTable .orders)
    | some rows =>
      let selected := rows.map (fun r => { r with created_at := r.created_at.bind localtime })
      let ordered :=
        selected.insertionSort (fun r s => createdAtGe r.created_at s.created_at = true)
      .ok (ordered.take 50)

/-- The `rows.Scan` call of `GetOrders` into a fresh `Order`: a NULL column
converts into a pointer field only; into a plain `string` or `float64` field it
is an error, and the scan fails. -/
def scanOrder (renderTime : Timestamp → String) (r : OrderRow) : Option Order := do
  let type_ ← r.type
  let status ← r.status
  let subtotal ← r.subtotal
  let taxAmount ← r.tax_amount
  let total ← r.total
  let paidAmount ← r.paid_amount
  let paymentStatus ← r.payment_status
  let customerName ← r.customer_name
  let customerPhone ← r.customer_phone
  let customerAddress ← r.customer_address
  let notes ← r.notes
  let kitchenNotes ← r.kitchen_notes
  let createdAt ← r.created_at
  pure
    { ID := r.id, OrderNumber := r.order_number, TableID := r.table_id, Type_ := type_,
      Status := status, Subtotal := subtotal, TaxAmount := taxAmount, Total := total,
      PaidAmount := paidAmount, PaymentStatus := paymentStatus,
      CustomerName := customerName, CustomerPhone := customerPhone,
      CustomerAddress := customerAddress, Notes := notes, KitchenNotes := kitchenNotes,
      CreatedAt := createdAt, CompletedAt := r.completed_at.map renderTime, Items := [] }

/-- One iteration of the `rows.Next()` loop of `GetOrders`: a row whose scan
fails is skipped, any other is appended. -/
def appendScanned (renderTime : Timestamp → String) (orders : List Order) (r : OrderRow) :
    List Order :=
  match scanOrder renderTime r with
  | none => orders
  | some o => orders ++ [o]

/-- Method `GetOrders`; `none` is the panic on a nil handle. -/
def GetOrders (env : ListEnv) (a : App) : Option (List Order × Option Error) :=
  match a.db with
  | none => none
  | some db =>
    match db.QueryOrders env.queryErr env.localtime with
    | .error err => some ([], some err)
    | .ok rows => some (rows.foldl (appendScanned env.renderTime) [], none)

/-! ## Auxiliary notions used in the statements -/

/-- States of the application reachable from a connection whose `orders` table
is empty through calls of `CreateOrder` and `UpdateOrderStatus` that return a
nil error, with any arguments and any clock readings. -/
inductive Reachable : App → Prop
  | start (a : App) (db : DB) (hdb : a.db = some db) (hrows : db.store.orders = some []) :
      Reachable a
  | create (env : CreateEnv) (a a1 : App) (orderData : String) (id : Int)
      (h : Reachable a) (hcall : CreateOrder env a orderData = some (a1, id, none)) :
      Reachable a1
  | update (env : UpdateEnv) (a a1 : App) (orderID : Int) (status : String)
      (h : Reachable a) (hcall : UpdateOrderStatus env a orderID status = some (a1, none)) :
      Reachable a1

/-- The application `a` with the `orders` rows behind its handle `db` replaced. -/
def App.withOrders (a : App) (db : DB) (rows : List OrderRow) : App :=
  { a with db := some { db with store := { db.store with orders := some rows } } }

/-- The `orders` rows once the status write of `UpdateOrderStatus` has been
attempted. -/
def rowsAfterStatus (env : UpdateEnv) (rows : List OrderRow) (orderID : Int)
    (status : String) : List OrderRow :=
  if env.statusErr = none then updateStatusWhere rows status orderID else rows

/-- The `orders` rows once the `completed_at` write of `UpdateOrderStatus` has
been attempted on `rows`. -/
def rowsAfterStamp (env : UpdateEnv) (rows : List OrderRow) (orderID : Int) :
    List OrderRow :=
  if env.stampErr = none then updateCompletedAtWhere rows env.sqlNow orderID else rows

/-- The rows of `settings` after the nine upserts of `saveSettings` have been
applied, in the order of the source, to `rows`. -/
def savedRows (env : SaveEnv) (s : Settings) (rows : List SettingRow) : List SettingRow :=
  let rows := upsert rows "restaurant_name" s.RestaurantName (env.now 0)
  let rows := upsert rows "restaurant_name_ar" s.RestaurantNameAr (env.now 1)
  let rows := upsert rows "currency" s.Currency (env.now 2)
  let rows := upsert rows "tax_rate" (env.formatFloat s.TaxRate) (env.now 3)
  let rows := upsert rows "service_charge_rate" (env.formatFloat s.ServiceChargeRate) (env.now 4)
  let rows := upsert rows "language" s.Language (env.now 5)
  let rows := upsert rows "theme_color" s.ThemeColor (env.now 6)
  let rows := upsert rows "print_receipt" (formatBool s.PrintReceipt) (env.now 7)
  let rows := upsert rows "print_kitchen" (formatBool s.PrintKitchen) (env.now 8)
  rows

/-- The rows of `rows` whose key is none of the nine keys `saveSettings` writes. -/
def otherRows (rows : List SettingRow) : List SettingRow :=
  rows.filter (fun r =>
    r.key ≠ some "restaurant_name" ∧ r.key ≠ some "restaurant_name_ar" ∧
    r.key ≠ some "currency" ∧ r.key ≠ some "tax_rate" ∧
    r.key ≠ some "service_charge_rate" ∧ r.key ≠ some "language" ∧
    r.key ≠ some "theme_color" ∧ r.key ≠ some "print_receipt" ∧
    r.key ≠ some "print_kitchen")

/-! ## Sample inputs -/

/-- A fallback store after `createTables`, holding a previously saved name. -/
def sampleStore : Store :=
  { Store.empty with
    settings := some [{ key := some "restaurant_name", value := some "Old Name",
                        updated_at := some "2024-01-01 09:00:00" }],
    categories := true, menu_items := true, orders := some [], order_items := true,
    tables := true, payments := true }

/-- A handle on `sampleStore`. -/
def sampleDB : DB := { driverName := .sqlite3, store := sampleStore }

/-- A settings record with every field different from its zero value. -/
def sampleSettings : Settings :=
  { RestaurantName := "Cafe Nile", RestaurantNameAr := "مقهى النيل", Currency := "EGP",
    TaxRate := 0.14, ServiceChargeRate := 0.10, Language := "en",
    ThemeColor := "#3366ff", PrintReceipt := true, PrintKitchen := true }

/-- An application connected to `sampleStore` and holding `sampleSettings`. -/
def sampleApp : App := { db := some sampleDB, settings := sampleSettings, currentLang := "en" }

/-- A rendering of `float64` parameters, used in the sample inputs only. -/
def sampleFormat (x : Float64) : String := toString x.num ++ "/" ++ toString x.den

/-- Every call of `saveSettings` goes through. -/
def saveOk : SaveEnv :=
  { beginErr := none, execErr := fun _ => none, commitErr := none,
    now := fun _ => "2024-06-01 12:00:00", formatFloat := sampleFormat }

/-- The fifth upsert of `saveSettings` (index 4, `service_charge_rate`) fails. -/
def saveFailsAtFifth : SaveEnv :=
  { saveOk with execErr := fun k => if k = 4 then some (.driver 5) else none }

/-- The application of a freshly started process on the store left behind by a
successful `saveSettings` of `sampleSettings`: `startup` has set `currentLang`
to "ar" and the settings are still zero. -/
def restartedApp : App :=
  { db := (saveSettings saveOk sampleApp).1.db, settings := Settings.zero, currentLang := "ar" }

/-- A process connected to a primary store that has no `settings` table, with
its in-memory settings still zero. -/
def unprovisionedApp : App :=
  { db := some { driverName := .mysql, store := Store.empty },
    settings := Settings.zero, currentLang := "ar" }

/-- The primary store does not answer the ping; the fallback file is new. -/
def primaryDown : InitEnv :=
  { mysqlOpenErr := none, mysqlPingErr := some (.driver 2), mysqlStore := Store.empty,
    sqliteOpenErr := none, sqlitePingErr := none, sqliteStore := Store.empty,
    schemaErr := fun _ => none }

/-- A store in which `createTables` has just created all seven tables. -/
def bootstrappedStore : Store :=
  { settings := some [], categories := true, menu_items := true, orders := some [],
    ordersSeq := 0, order_items := true, tables := true, payments := true }

/-- A fallback handle whose `orders` table holds the given rows. -/
def dbWithOrders (rows : List OrderRow) : DB :=
  { driverName := .sqlite3,
    store := { sampleStore with orders := some rows,
                                ordersSeq := rows.foldl (fun m r => max m r.id) 0 } }

/-- An application connected to a store with the given `orders` rows. -/
def appWithOrders (rows : List OrderRow) : App :=
  { db := some (dbWithOrders rows), settings := defaultSettings, currentLang := "ar" }

/-- The row `CreateOrder` inserts first. -/
def pendingOrder : OrderRow :=
  newOrderRow 1 "ORD-1700000000" "pending" "2023-11-14 22:13:20"

/-- Both writes of `UpdateOrderStatus` go through. -/
def updateOk : UpdateEnv :=
  { statusErr := none, stampErr := none, sqlNow := "2023-11-14 23:00:00" }

/-- The status write is reported as failed, the `completed_at` write is not. -/
def statusWriteFails : UpdateEnv :=
  { statusErr := some (.driver 7), stampErr := none, sqlNow := "2023-11-14 23:00:00" }

/-- The insert of `CreateOrder` goes through. -/
def createOk : CreateEnv :=
  { unixNow := 1700000000, sqlNow := "2023-11-14 22:13:20", execErr := none }

/-- An application showing the default settings, connected to `sampleStore`. -/
def defaultApp : App := { db := some sampleDB, settings := defaultSettings, currentLang := "ar" }

/-- The order 1 after it has been completed. -/
def completedOrder : OrderRow :=
  { pendingOrder with status := some "completed",
                      completed_at := some "2023-11-14 23:00:00" }

/-- The order 1 with `completed_at` set while its status is "pending". -/
def reopenedOrder : OrderRow :=
  { pendingOrder with completed_at := some "2023-11-14 23:00:00" }

/-- The query of `GetOrders` goes through; `created_at` values are valid times,
the zone offset is zero, and a `completed_at` of the form "2023-11-14 23:00:00"
is rendered as "2023-11-14T23:00:00Z". -/
def listOk : ListEnv :=
  { queryErr := none, localtime := fun t => some t,
    renderTime := fun t =>
      String.mk (t.data.map (fun c => if c = ' ' then 'T' else c)) ++ "Z" }

/-- An order row in which every text column has been filled in. -/
def filledOrder : OrderRow :=
  { newOrderRow 7 "ORD-1600000000" "ready" "2020-09-13 12:26:40" with
    customer_name := some "Mona", customer_phone := some "0100000000",
    customer_address := some "Cairo", notes := some "", kitchen_notes := some "" }

/-- The order 7 with every text column filled in, after it has been completed. -/
def filledCompletedOrder : OrderRow :=
  { filledOrder with status := some "completed",
                     completed_at := some "2023-11-14 23:00:00" }

/-- An order row that carries the largest row id. -/
def lastIdOrder : OrderRow := { filledOrder with id := maxRowId }

/-! ## Transactions keep the committed state until commit -/

theorem Tx.Exec_db (tx : Tx) (fault : Option Error) (q : Stmt) :
    (tx.Exec fault q).1.db = tx.db := by
  unfold Tx.Exec
  cases fault with
  | some e => rfl
  | none =>
    cases h : tx.work.exec q with
    | error e => rfl
    | ok p => rfl

theorem Tx.Exec_ok_fault (tx : Tx) (fault : Option Error) (q : Stmt) (r : ExecResult)
    (h : (tx.Exec fault q).2 = .ok r) : fault = none := by
  cases fault with
  | none => rfl
  | some e => simp [Tx.Exec] at h

theorem DB.Begin_ok (db : DB) (fault : Option Error) (tx : Tx)
    (h : db.Begin fault = .ok tx) : fault = none ∧ tx.db = db := by
  cases fault with
  | some e => simp [DB.Begin] at h
  | none =>
    simp only [DB.Begin, Except.ok.injEq] at h
    subst h
    exact ⟨rfl, rfl⟩

theorem Tx.Commit_err (tx : Tx) (fault : Option Error)
    (h : (tx.Commit fault).2 ≠ none) : (tx.Commit fault).1 = tx.db := by
  cases fault with
  | some e => rfl
  | none => simp [Tx.Commit] at h

theorem Tx.Commit_ok_fault (tx : Tx) (fault : Option Error)
    (h : (tx.Commit fault).2 = none) : fault = none := by
  cases fault with
  | none => rfl
  | some e => simp [Tx.Commit] at h

theorem Tx.Exec_step (tx tx1 : Tx) (fault : Option Error) (q : Stmt)
    (res : Except Error ExecResult) (h : tx.Exec fault q = (tx1, res)) :
    tx1.db = tx.db := by
  have := Tx.Exec_db tx fault q
  rw [h] at this
  exact this

theorem Tx.Exec_step_ok (tx tx1 : Tx) (fault : Option Error) (q : Stmt) (r : ExecResult)
    (h : tx.Exec fault q = (tx1, .ok r)) : fault = none := by
  apply Tx.Exec_ok_fault tx fault q r
  rw [h]

theorem App.restore_db (a : App) (db d : DB) (hdb : a.db = some db) (hd : d = db) :
    { a with db := some d } = a := by
  cases a
  simp_all

/-- An error return of `saveSettings` leaves the application, and with it the
store behind its handle, exactly as before the call. -/
theorem saveSettings_err_unchanged (env : SaveEnv) (a : App)
    (h : (saveSettings env a).2 ≠ none) : (saveSettings env a).1 = a := by
  revert h
  unfold saveSettings
  split
  · intro _; rfl
  rename_i db hdb
  split
  · intro _; rfl
  rename_i tx h0
  obtain ⟨-, hb⟩ := DB.Begin_ok _ _ _ h0
  split
  · rename_i tx e hx
    intro _
    exact App.restore_db a db _ hdb ((Tx.Exec_step _ _ _ _ _ hx).trans hb)
  rename_i tx0 r0 hx0
  have hb0 := (Tx.Exec_step _ _ _ _ _ hx0).trans hb
  split
  · rename_i tx e hx
    intro _
    exact App.restore_db a db _ hdb ((Tx.Exec_step _ _ _ _ _ hx).trans hb0)
  rename_i tx1 r1 hx1
  have hb1 := (Tx.Exec_step _ _ _ _ _ hx1).trans hb0
  split
  · rename_i tx e hx
    intro _
    exact App.restore_db a db _ hdb ((Tx.Exec_step _ _ _ _ _ hx).trans hb1)
  rename_i tx2 r2 hx2
  have hb2 := (Tx.Exec_step _ _ _ _ _ hx2).trans hb1
  split
  · rename_i tx e hx
    intro _
    exact App.restore_db a db _ hdb ((Tx.Exec_step _ _ _ _ _ hx).trans hb2)
  rename_i tx3 r3 hx3
  have hb3 := (Tx.Exec_step _ _ _ _ _ hx3).trans hb2
  split
  · rename_i tx e hx
    intro _
    exact App.restore_db a db _ hdb ((Tx.Exec_step _ _ _ _ _ hx).trans hb3)
  rename_i tx4 r4 hx4
  have hb4 := (Tx.Exec_step _ _ _ _ _ hx4).trans hb3
  split
  · rename_i tx e hx
    intro _
    exact App.restore_db a db _ hdb ((Tx.Exec_step _ _ _ _ _ hx).trans hb4)
  rename_i tx5 r5 hx5
  have hb5 := (Tx.Exec_step _ _ _ _ _ hx5).trans hb4
  split
  · rename_i tx e hx
    intro _
    exact App.restore_db a db _ hdb ((Tx.Exec_step _ _ _ _ _ hx).trans hb5)
  rename_i tx6 r6 hx6
  have hb6 := (Tx.Exec_step _ _ _ _ _ hx6).trans hb5
  split
  · rename_i tx e hx
    intro _
    exact App.restore_db a db _ hdb ((Tx.Exec_step _ _ _ _ _ hx).trans hb6)
  rename_i tx7 r7 hx7
  have hb7 := (Tx.Exec_step _ _ _ _ _ hx7).trans hb6
  split
  · rename_i tx e hx
    intro _
    exact App.restore_db a db _ hdb ((Tx.Exec_step _ _ _ _ _ hx).trans hb7)
  rename_i tx8 r8 hx8
  have hb8 := (Tx.Exec_step _ _ _ _ _ hx8).trans hb7
  split
  rename_i db1 err hc
  intro h
  have h2 : (Tx.Commit tx8 env.commitErr).2 ≠ none := by rw [hc]; exact h
  have h3 := Tx.Commit_err _ _ h2
  rw [hc] at h3
  exact App.restore_db a db _ hdb (h3.trans hb8)

/-- A `nil` return of `saveSettings` means that no call into the driver was
reported as failed. -/
theorem saveSettings_ok_no_fault (env : SaveEnv) (a : App)
    (h : (saveSettings env a).2 = none) :
    env.beginErr = none ∧ (∀ k, k < 9 → env.execErr k = none) ∧ env.commitErr = none := by
  revert h
  unfold saveSettings
  split
  · simp
  rename_i db hdb
  split
  · simp
  rename_i tx h0
  obtain ⟨hbegin, -⟩ := DB.Begin_ok _ _ _ h0
  split
  · simp
  rename_i tx0 r0 hx0
  have hf0 := Tx.Exec_step_ok _ _ _ _ _ hx0
  split
  · simp
  rename_i tx1 r1 hx1
  have hf1 := Tx.Exec_step_ok _ _ _ _ _ hx1
  split
  · simp
  rename_i tx2 r2 hx2
  have hf2 := Tx.Exec_step_ok _ _ _ _ _ hx2
  split
  · simp
  rename_i tx3 r3 hx3
  have hf3 := Tx.Exec_step_ok _ _ _ _ _ hx3
  split
  · simp
  rename_i tx4 r4 hx4
  have hf4 := Tx.Exec_step_ok _ _ _ _ _ hx4
  split
  · simp
  rename_i tx5 r5 hx5
  have hf5 := Tx.Exec_step_ok _ _ _ _ _ hx5
  split
  · simp
  rename_i tx6 r6 hx6
  have hf6 := Tx.Exec_step_ok _ _ _ _ _ hx6
  split
  · simp
  rename_i tx7 r7 hx7
  have hf7 := Tx.Exec_step_ok _ _ _ _ _ hx7
  split
  · simp
  rename_i tx8 r8 hx8
  have hf8 := Tx.Exec_step_ok _ _ _ _ _ hx8
  split
  rename_i db1 err hc
  intro h
  have h2 : (Tx.Commit tx8 env.commitErr).2 = none := by rw [hc]; exact h
  refine ⟨hbegin, ?_, Tx.Commit_ok_fault _ _ h2⟩
  intro k hk
  interval_cases k <;> assumption

/-! ## Settings: atomic save -/

/-- C1: `saveSettings` is atomic over the persisted settings table.  Whenever
`Begin`, one of the nine upserts, or `Commit` is reported as failed, the call
returns an error and the handle, with the whole store behind it and so the
key/value table, is exactly what it was before the call: none of the upserts
made earlier in the call is visible. -/
theorem saveSettings_atomic (env : SaveEnv) (a : App)
    (h : env.beginErr ≠ none ∨ (∃ k, k < 9 ∧ env.execErr k ≠ none) ∨ env.commitErr ≠ none) :
    (saveSettings env a).2 ≠ none ∧ (saveSettings env a).1.db = a.db := by
  have herr : (saveSettings env a).2 ≠ none := by
    intro hn
    obtain ⟨hb, hk, hc⟩ := saveSettings_ok_no_fault env a hn
    rcases h with h | ⟨k, hk9, hk1⟩ | h
    · exact h hb
    · exact hk1 (hk k hk9)
    · exact h hc
  exact ⟨herr, by rw [saveSettings_err_unchanged env a herr]⟩

/-- Instance of C1: the fifth upsert fails after four have run inside the
transaction; the call fails and the store is the one from before. -/
theorem saveSettings_atomic_witness :
    (∃ k, k < 9 ∧ saveFailsAtFifth.execErr k ≠ none) ∧
    (saveSettings saveFailsAtFifth sampleApp).2 ≠ none ∧
    (saveSettings saveFailsAtFifth sampleApp).1.db = sampleApp.db :=
  ⟨⟨4, by decide, by decide⟩,
   saveSettings_atomic saveFailsAtFifth sampleApp (Or.inr (Or.inl ⟨4, by decide, by decide⟩))⟩

/-- A save on which nothing fails does replace the stored record: the model's
transactions are not inert. -/
theorem saveSettings_commits_sample :
    (saveSettings saveOk sampleApp).2 = none ∧
    (saveSettings saveOk sampleApp).1.db ≠ sampleApp.db := by
  refine ⟨rfl, ?_⟩
  decide

/-! ## Settings: load -/

/-- With no connection `loadSettings` installs the default record. -/
theorem loadSettings_nil_db (queryErr : Option Error) (a : App) (h : a.db = none) :
    (loadSettings queryErr a).settings = defaultSettings := by
  unfold loadSettings
  rw [h]
  rfl

/-- On an existing but empty `settings` table, starting from zero-valued
settings, `loadSettings` installs the default record. -/
theorem loadSettings_empty_table (a : App) (db : DB)
    (hdb : a.db = some db) (hrows : db.store.settings = some [])
    (hz : a.settings = Settings.zero) :
    (loadSettings none a).settings = defaultSettings := by
  unfold loadSettings
  rw [hdb]
  simp only [DB.QuerySettings, hrows, List.foldl_nil, hz]
  rfl

/-! ## Settings: round trip through the store -/

theorem Tx.Exec_upsert_rows (tx tx1 : Tx) (fault : Option Error) (k v : String)
    (t : Timestamp) (r : ExecResult)
    (h : tx.Exec fault (.upsertSetting k v t) = (tx1, .ok r)) :
    ∃ rows, tx.work.settings = some rows := by
  cases fault with
  | some e => simp [Tx.Exec] at h
  | none =>
    cases hs : tx.work.settings with
    | none => simp [Tx.Exec, Store.exec, hs] at h
    | some rows => exact ⟨rows, rfl⟩

theorem Tx.Exec_upsert_chain (tx tx1 : Tx) (fault : Option Error) (k v : String)
    (t : Timestamp) (r : ExecResult) (s0 : Store) (R : List SettingRow)
    (hw : tx.work = { s0 with settings := some R })
    (h : tx.Exec fault (.upsertSetting k v t) = (tx1, .ok r)) :
    tx1.work = { s0 with settings := some (upsert R k v t) } := by
  cases fault with
  | some e => simp [Tx.Exec] at h
  | none =>
    simp only [Tx.Exec, Store.exec, hw, Prod.mk.injEq, Except.ok.injEq] at h
    rw [← h.1]

theorem Tx.Commit_ok (tx : Tx) (fault : Option Error)
    (h : (tx.Commit fault).2 = none) :
    (tx.Commit fault).1 = { tx.db with store := tx.work } := by
  cases fault with
  | none => rfl
  | some e => simp [Tx.Commit] at h

/-- The store a successful `saveSettings` leaves behind: the nine upserts, in
the order of the source, applied to the rows found at `Begin`. -/
theorem saveSettings_ok_store (env : SaveEnv) (a : App)
    (hok : (saveSettings env a).2 = none) :
    ∃ db rows, a.db = some db ∧ db.store.settings = some rows ∧
      (saveSettings env a).1.db = some
        { db with store := { db.store with settings := some (savedRows env a.settings rows) } } := by
  revert hok
  unfold saveSettings
  split
  · simp
  rename_i db hdb
  split
  · simp
  rename_i tx h0
  obtain ⟨-, hb⟩ := DB.Begin_ok _ _ _ h0
  have hwork : tx.work = db.store := by
    cases hf : env.beginErr with
    | some e => simp [DB.Begin, hf] at h0
    | none =>
      simp only [DB.Begin, hf, Except.ok.injEq] at h0
      rw [← h0]
  split
  · simp
  rename_i tx0 r0 hx0
  obtain ⟨rows, hrows⟩ := Tx.Exec_upsert_rows _ _ _ _ _ _ _ hx0
  have hw : tx.work = { db.store with settings := some rows } := by
    rw [hwork] at hrows ⊢
    cases hst : db.store
    rw [hst] at hrows
    simp only at hrows
    simp [hrows]
  have hw0 := Tx.Exec_upsert_chain _ _ _ _ _ _ _ db.store _ hw hx0
  have hb0 := (Tx.Exec_step _ _ _ _ _ hx0).trans hb
  split
  · simp
  rename_i tx1 r1 hx1
  have hw1 := Tx.Exec_upsert_chain _ _ _ _ _ _ _ db.store _ hw0 hx1
  have hb1 := (Tx.Exec_step _ _ _ _ _ hx1).trans hb0
  split
  · simp
  rename_i tx2 r2 hx2
  have hw2 := Tx.Exec_upsert_chain _ _ _ _ _ _ _ db.store _ hw1 hx2
  have hb2 := (Tx.Exec_step _ _ _ _ _ hx2).trans hb1
  split
  · simp
  rename_i tx3 r3 hx3
  have hw3 := Tx.Exec_upsert_chain _ _ _ _ _ _ _ db.store _ hw2 hx3
  have hb3 := (Tx.Exec_step _ _ _ _ _ hx3).trans hb2
  split
  · simp
  rename_i tx4 r4 hx4
  have hw4 := Tx.Exec_upsert_chain _ _ _ _ _ _ _ db.store _ hw3 hx4
  have hb4 := (Tx.Exec_step _ _ _ _ _ hx4).trans hb3
  split
  · simp
  rename_i tx5 r5 hx5
  have hw5 := Tx.Exec_upsert_chain _ _ _ _ _ _ _ db.store _ hw4 hx5
  have hb5 := (Tx.Exec_step _ _ _ _ _ hx5).trans hb4
  split
  · simp
  rename_i tx6 r6 hx6
  have hw6 := Tx.Exec_upsert_chain _ _ _ _ _ _ _ db.store _ hw5 hx6
  have hb6 := (Tx.Exec_step _ _ _ _ _ hx6).trans hb5
  split
  · simp
  rename_i tx7 r7 hx7
  have hw7 := Tx.Exec_upsert_chain _ _ _ _ _ _ _ db.store _ hw6 hx7
  have hb7 := (Tx.Exec_step _ _ _ _ _ hx7).trans hb6
  split
  · simp
  rename_i tx8 r8 hx8
  have hw8 := Tx.Exec_upsert_chain _ _ _ _ _ _ _ db.store _ hw7 hx8
  have hb8 := (Tx.Exec_step _ _ _ _ _ hx8).trans hb7
  split
  rename_i db1 err hc
  intro h
  have h2 : (Tx.Commit tx8 env.commitErr).2 = none := by rw [hc]; exact h
  have h3 := Tx.Commit_ok tx8 env.commitErr h2
  rw [hc] at h3
  simp only at h3
  refine ⟨db, rows, hdb, by rw [← hwork, hw], ?_⟩
  simp only [h3, hw8, hb8, savedRows]

theorem scanSetting_ignored (a : App) (r : SettingRow)
    (h : r.key ≠ some "restaurant_name" ∧ r.key ≠ some "restaurant_name_ar" ∧
      r.key ≠ some "currency" ∧ r.key ≠ some "language" ∧ r.key ≠ some "theme_color") :
    scanSetting a r = a := by
  obtain ⟨key, value, ts⟩ := r
  cases key with
  | none => rfl
  | some k =>
    cases value with
    | none => rfl
    | some v =>
      simp only [ne_eq, Option.some.injEq] at h
      simp [scanSetting, h]

theorem foldl_scanSetting_ignored (F : List SettingRow) (a : App)
    (h : ∀ r ∈ F, r.key ≠ some "restaurant_name" ∧ r.key ≠ some "restaurant_name_ar" ∧
      r.key ≠ some "currency" ∧ r.key ≠ some "language" ∧ r.key ≠ some "theme_color") :
    F.foldl scanSetting a = a := by
  induction F generalizing a with
  | nil => rfl
  | cons r rest ih =>
    rw [List.foldl_cons, scanSetting_ignored a r (h r (by simp))]
    exact ih a (fun x hx => h x (by simp [hx]))

theorem savedRows_eq (env : SaveEnv) (s : Settings) (rows : List SettingRow) :
      savedRows env s rows = otherRows rows ++
        [{ key := some "restaurant_name", value := some s.RestaurantName, updated_at := some (env.now 0) },
         { key := some "restaurant_name_ar", value := some s.RestaurantNameAr, updated_at := some (env.now 1) },
         { key := some "currency", value := some s.Currency, updated_at := some (env.now 2) },
         { key := some "tax_rate", value := some (env.formatFloat s.TaxRate), updated_at := some (env.now 3) },
         { key := some "service_charge_rate", value := some (env.formatFloat s.ServiceChargeRate), updated_at := some (env.now 4) },
         { key := some "language", value := some s.Language, updated_at := some (env.now 5) },
         { key := some "theme_color", value := some s.ThemeColor, updated_at := some (env.now 6) },
         { key := some "print_receipt", value := some (formatBool s.PrintReceipt), updated_at := some (env.now 7) },
         { key := some "print_kitchen", value := some (formatBool s.PrintKitchen), updated_at := some (env.now 8) }] := by
  simp only [savedRows, upsert, otherRows, List.filter_append, List.filter_filter]
  simp
  congr 1
  funext r
  ac_rfl

theorem otherRows_ignored (rows : List SettingRow) :
    ∀ r ∈ otherRows rows, r.key ≠ some "restaurant_name" ∧
      r.key ≠ some "restaurant_name_ar" ∧ r.key ≠ some "currency" ∧
      r.key ≠ some "language" ∧ r.key ≠ some "theme_color" := by
  intro r hr
  simp only [otherRows, List.mem_filter, decide_eq_true_eq] at hr
  obtain ⟨-, h0, h1, h2, -, -, h5, h6, -, -⟩ := hr
  exact ⟨h0, h1, h2, h5, h6⟩

/-- What the round trip through the store returns.  For every record with a
non-empty restaurant name and every prior content of the table, a successful
`saveSettings` followed by `loadSettings` in a restarted process yields the
five text fields as saved, the two rates 0 and the two print flags false, and
sets the current language to the saved one. -/
theorem save_then_load_reads_five_fields (env : SaveEnv) (a : App) (lang : String)
    (hname : a.settings.RestaurantName ≠ "")
    (hok : (saveSettings env a).2 = none) :
    loadSettings none
        { db := (saveSettings env a).1.db, settings := Settings.zero, currentLang := lang }
      = { db := (saveSettings env a).1.db,
          settings := { a.settings with TaxRate := 0, ServiceChargeRate := 0,
                                        PrintReceipt := false, PrintKitchen := false },
          currentLang := a.settings.Language } := by
  obtain ⟨db, rows, hdb, hrows, hfinal⟩ := saveSettings_ok_store env a hok
  rw [hfinal]
  unfold loadSettings
  simp only [DB.QuerySettings, savedRows_eq, List.foldl_append]
  rw [foldl_scanSetting_ignored (otherRows rows) _ (otherRows_ignored rows)]
  simp [scanSetting, Settings.zero, hname]

/-- C2 (code defect): the round trip loses four of the nine fields.  After a
successful `saveSettings` of `sampleSettings`, `loadSettings` in a restarted
process returns the five text fields as saved, but tax rate and service-charge
rate 0 and both print flags false, so the loaded record differs from the saved
one. -/
theorem save_then_load_loses_rates_and_flags :
    (sampleSettings.RestaurantName ≠ "" ∧
      0 ≤ sampleSettings.TaxRate ∧ sampleSettings.TaxRate ≤ 1 ∧
      0 ≤ sampleSettings.ServiceChargeRate ∧ sampleSettings.ServiceChargeRate ≤ 1) ∧
    (saveSettings saveOk sampleApp).2 = none ∧
    (loadSettings none restartedApp).settings =
      { sampleSettings with TaxRate := 0, ServiceChargeRate := 0,
                            PrintReceipt := false, PrintKitchen := false } ∧
    (loadSettings none restartedApp).settings ≠ sampleSettings := by
  have hload : (loadSettings none restartedApp).settings =
      { sampleSettings with TaxRate := 0, ServiceChargeRate := 0,
                            PrintReceipt := false, PrintKitchen := false } := rfl
  refine ⟨⟨by decide, ?_⟩, rfl, hload, ?_⟩
  · norm_num [sampleSettings]
  rw [hload]
  intro h
  have hp := congrArg Settings.PrintReceipt h
  simp [sampleSettings] at hp

/-- Whenever the settings query fails, `loadSettings` returns without touching
the application: nothing is loaded and no default is installed. -/
theorem loadSettings_query_failure (queryErr : Option Error) (a : App) (db : DB) (e : Error)
    (hdb : a.db = some db) (hq : db.QuerySettings queryErr = .error e) :
    loadSettings queryErr a = a := by
  unfold loadSettings
  rw [hdb]
  simp only [hq]

/-- The fallback path of startup: the primary does not answer, the fallback
file is new, `createTables` runs, and the following `loadSettings` finds an
empty `settings` table and installs the default record. -/
theorem startup_fallback_loads_defaults :
    (startup primaryDown none NewApp).map GetSettings = some defaultSettings := by
  rfl

/-- C3 (code defect): when the settings query fails because the table is
absent, `loadSettings` returns early and leaves the zero-valued record in
place instead of the default bundle. -/
theorem loadSettings_query_failure_keeps_zero :
    unprovisionedApp.db.isSome = true ∧
    DB.QuerySettings { driverName := .mysql, store := Store.empty } none
      = .error (.noSuchTable .settings) ∧
    (loadSettings none unprovisionedApp).settings = Settings.zero ∧
    (loadSettings none unprovisionedApp).settings ≠ defaultSettings := by
  have hload : (loadSettings none unprovisionedApp).settings = Settings.zero := rfl
  refine ⟨rfl, rfl, hload, ?_⟩
  rw [hload]
  intro h
  have hp := congrArg Settings.PrintReceipt h
  simp [Settings.zero, defaultSettings] at hp

/-! ## Connection selection -/

theorem createTablesLoop_spec (f : Nat → Option Error) (qs : List Stmt)
    (hq : ∀ q ∈ qs, ∃ t, q = .createTable t) (db : DB) (k : Nat) :
    ((createTablesLoop f db k qs).2.1 ≠ none ↔ ∃ i, i < qs.length ∧ f (k + i) ≠ none) ∧
    (createTablesLoop f db k qs).1.driverName = db.driverName ∧
    (∀ q rest, qs = q :: rest → ∃ tl, (createTablesLoop f db k qs).2.2 = .exec q :: tl) := by
  induction qs generalizing db k with
  | nil => simp [createTablesLoop]
  | cons q rest ih =>
    obtain ⟨t, rfl⟩ := hq q (by simp)
    have hrest : ∀ q ∈ rest, ∃ t, q = .createTable t := fun q hq1 => hq q (by simp [hq1])
    cases hf : f k with
    | some e =>
      have hval : createTablesLoop f db k (.createTable t :: rest)
          = (db, some e, [.exec (.createTable t)]) := by
        simp [createTablesLoop, DB.Exec, hf]
      rw [hval]
      refine ⟨?_, rfl, ?_⟩
      · simp only [ne_eq, reduceCtorEq, not_false_eq_true, List.length_cons, true_iff]
        exact ⟨0, by simp, by simp [hf]⟩
      · intro q rest1 h
        simp only [List.cons.injEq] at h
        exact ⟨[], by rw [h.1]⟩
    | none =>
      obtain ⟨h1, h2, -⟩ := ih hrest { db with store := db.store.createTable t } (k + 1)
      have hval : createTablesLoop f db k (.createTable t :: rest)
          = ((createTablesLoop f { db with store := db.store.createTable t } (k + 1) rest).1,
             (createTablesLoop f { db with store := db.store.createTable t } (k + 1) rest).2.1,
             .exec (.createTable t) ::
              (createTablesLoop f { db with store := db.store.createTable t } (k + 1) rest).2.2) := by
        simp [createTablesLoop, DB.Exec, hf, Store.exec]
      rw [hval]
      refine ⟨?_, h2, ?_⟩
      · show (createTablesLoop f { db with store := db.store.createTable t } (k + 1) rest).2.1 ≠ none ↔ _
        rw [h1]
        constructor
        · rintro ⟨i, hi, hfi⟩
          refine ⟨i + 1, by simp [hi], ?_⟩
          rw [show k + (i + 1) = k + 1 + i by omega]
          exact hfi
        · rintro ⟨i, hi, hfi⟩
          cases i with
          | zero => simp [hf] at hfi
          | succ j =>
            refine ⟨j, by simpa using hi, ?_⟩
            rw [show k + 1 + j = k + (j + 1) by omega]
            exact hfi
      · intro q rest1 h
        simp only [List.cons.injEq] at h
        exact ⟨_, by rw [h.1]⟩

theorem queries_createTable : ∀ q ∈ queries, ∃ t, q = Stmt.createTable t := by
  intro q hq
  simp only [queries, List.mem_cons, List.mem_singleton, List.not_mem_nil, or_false] at hq
  rcases hq with h | h | h | h | h | h | h <;> exact ⟨_, h⟩

/-- Every path of `initDatabase`, over all outcomes of the calls it makes.  The
call always returns.  The guard on `sql.Open` of the primary returns its error
at once.  Otherwise a successful probe makes the primary the active connection
with no schema statement executed, and a failed probe leads to the fallback:
it is opened, probed when the open succeeded, and when both succeeded
`createTables` runs on it, starting with the `settings` table, and it is the
active connection. -/
theorem initDatabase_cases (env : InitEnv) (a : App) :
    ∃ a1 err calls, initDatabase env a = some (a1, err, calls) ∧
      (∀ e, env.mysqlOpenErr = some e →
        a1 = a ∧ err = some e ∧ calls = [.sqlOpen .mysql]) ∧
      (env.mysqlOpenErr = none → env.mysqlPingErr = none →
        a1.db = some { driverName := .mysql, store := env.mysqlStore } ∧ err = none ∧
        calls = [.sqlOpen .mysql, .ping .mysql]) ∧
      (env.mysqlOpenErr = none → env.mysqlPingErr ≠ none →
        [Call.sqlOpen .mysql, .ping .mysql, .sqlOpen .sqlite3] <+: calls ∧
        (env.sqliteOpenErr = none →
          [Call.sqlOpen .mysql, .ping .mysql, .sqlOpen .sqlite3, .ping .sqlite3] <+: calls) ∧
        (env.sqliteOpenErr = none → env.sqlitePingErr = none →
          ∃ db1 tl, a1.db = some db1 ∧ db1.driverName = .sqlite3 ∧
            createTablesLoop env.schemaErr
              { driverName := .sqlite3, store := env.sqliteStore } 0 queries
              = (db1, err, .exec (.createTable .settings) :: tl) ∧
            calls = [.sqlOpen .mysql, .ping .mysql, .sqlOpen .sqlite3, .ping .sqlite3,
                     .exec (.createTable .settings)] ++ tl)) ∧
      (err ≠ none ↔
        env.mysqlOpenErr ≠ none ∨
        (env.mysqlPingErr ≠ none ∧
          (env.sqliteOpenErr ≠ none ∨ env.sqlitePingErr ≠ none ∨
            ∃ k, k < 7 ∧ env.schemaErr k ≠ none))) := by
  cases ho : env.mysqlOpenErr with
  | some e =>
    refine ⟨a, some e, [.sqlOpen .mysql], ?_, ?_, ?_, ?_, ?_⟩
    · simp [initDatabase, sqlOpen, ho]
    · intro e1 h; simp only [Option.some.injEq] at h; subst h; exact ⟨rfl, rfl, rfl⟩
    · intro h; simp at h
    · intro h; simp at h
    · simp
  | none =>
    cases hp : env.mysqlPingErr with
    | none =>
      refine ⟨{ a with db := some { driverName := .mysql, store := env.mysqlStore } },
        none, [.sqlOpen .mysql, .ping .mysql], ?_, ?_, ?_, ?_, ?_⟩
      · simp [initDatabase, sqlOpen, DB.Ping, ho, hp]
      · intro e h; simp at h
      · intro _ _; exact ⟨rfl, rfl, rfl⟩
      · intro _ h; simp at h
      · simp
    | some pe =>
      cases hfo : env.sqliteOpenErr with
      | some e =>
        refine ⟨a, some e, [.sqlOpen .mysql, .ping .mysql, .sqlOpen .sqlite3], ?_, ?_, ?_, ?_, ?_⟩
        · simp [initDatabase, initSQLite, sqlOpen, DB.Ping, ho, hp, hfo]
        · intro e h; simp at h
        · intro _ h; simp at h
        · intro _ _
          refine ⟨List.prefix_refl _, ?_, ?_⟩
          · intro h; simp at h
          · intro h; simp at h
        · simp
      | none =>
        cases hfp : env.sqlitePingErr with
        | some e =>
          refine ⟨a, some e,
            [.sqlOpen .mysql, .ping .mysql, .sqlOpen .sqlite3, .ping .sqlite3], ?_, ?_, ?_, ?_, ?_⟩
          · simp [initDatabase, initSQLite, sqlOpen, DB.Ping, ho, hp, hfo, hfp]
          · intro e h; simp at h
          · intro _ h; simp at h
          · intro _ _
            refine ⟨⟨[.ping .sqlite3], rfl⟩, ?_, ?_⟩
            · intro _; exact List.prefix_refl _
            · intro _ h; simp at h
          · simp
        | none =>
          obtain ⟨h1, h2, h3⟩ := createTablesLoop_spec env.schemaErr queries
            queries_createTable { driverName := .sqlite3, store := env.sqliteStore } 0
          obtain ⟨tl, htl⟩ := h3 (.createTable .settings) _ rfl
          generalize hL : createTablesLoop env.schemaErr
            { driverName := .sqlite3, store := env.sqliteStore } 0 queries = L at h1 h2 htl
          obtain ⟨db1, err, calls⟩ := L
          simp only at h1 h2 htl
          subst htl
          refine ⟨{ a with db := some db1 }, err,
            [.sqlOpen .mysql, .ping .mysql, .sqlOpen .sqlite3, .ping .sqlite3,
             .exec (.createTable .settings)] ++ tl, ?_, ?_, ?_, ?_, ?_⟩
          · simp only [initDatabase, initSQLite, sqlOpen, DB.Ping, ho, hp, hfo, hfp,
              createTables, hL]
            cases err <;> rfl
          · intro e h; simp at h
          · intro _ h; simp at h
          · intro _ _
            refine ⟨⟨.ping .sqlite3 :: .exec (.createTable .settings) :: tl, rfl⟩, ?_, ?_⟩
            · intro _
              exact ⟨.exec (.createTable .settings) :: tl, rfl⟩
            · intro _ _
              exact ⟨db1, tl, rfl, h2, rfl, rfl⟩
          · rw [h1]
            simp [queries]

/-- C4: connection selection by `initDatabase`, over the outcomes of the pings,
of the fallback open and of the schema statements.  `sql.Open` of the primary
only looks up the registered driver and parses the constant DSN, so it reports
no error (`hopen`).  If the primary probe succeeds, the primary handle becomes
the active connection and no schema statement is executed.  If the primary
probe fails for any reason, the fallback store is opened and, once open,
probed; when that succeeds `createTables` is run on it before returning and the
fallback is the active connection.  An error is returned exactly when the
primary probe fails and the fallback open, the fallback probe or one of the
seven schema statements fails. -/
theorem initDatabase_connection_selection (env : InitEnv) (a : App)
    (hopen : env.mysqlOpenErr = none) :
    ∃ a1 err calls, initDatabase env a = some (a1, err, calls) ∧
      (env.mysqlPingErr = none →
        a1.db = some { driverName := .mysql, store := env.mysqlStore } ∧ err = none ∧
        calls = [.sqlOpen .mysql, .ping .mysql]) ∧
      (env.mysqlPingErr ≠ none →
        [Call.sqlOpen .mysql, .ping .mysql, .sqlOpen .sqlite3] <+: calls ∧
        (env.sqliteOpenErr = none →
          [Call.sqlOpen .mysql, .ping .mysql, .sqlOpen .sqlite3, .ping .sqlite3] <+: calls) ∧
        (env.sqliteOpenErr = none → env.sqlitePingErr = none →
          ∃ db1 tl, a1.db = some db1 ∧ db1.driverName = .sqlite3 ∧
            createTablesLoop env.schemaErr
              { driverName := .sqlite3, store := env.sqliteStore } 0 queries
              = (db1, err, .exec (.createTable .settings) :: tl) ∧
            calls = [.sqlOpen .mysql, .ping .mysql, .sqlOpen .sqlite3, .ping .sqlite3,
                     .exec (.createTable .settings)] ++ tl)) ∧
      (err ≠ none ↔
        (env.mysqlPingErr ≠ none ∧
          (env.sqliteOpenErr ≠ none ∨ env.sqlitePingErr ≠ none ∨
            ∃ k, k < 7 ∧ env.schemaErr k ≠ none))) := by
  obtain ⟨a1, err, calls, h, -, hprimary, hfallback, herr⟩ := initDatabase_cases env a
  refine ⟨a1, err, calls, h, hprimary hopen, hfallback hopen, ?_⟩
  rw [herr]
  constructor
  · rintro (h1 | h1)
    · exact absurd hopen h1
    · exact h1
  · intro h1
    exact Or.inr h1

/-- Instance of C4: the primary opens but does not answer the ping, and the
fallback file is new.  The call returns no error, the fallback is the active
connection, and all seven tables have been created on it. -/
theorem initDatabase_connection_selection_witness :
    primaryDown.mysqlOpenErr = none ∧
    initDatabase primaryDown NewApp
      = some ({ NewApp with db := some { driverName := .sqlite3, store := bootstrappedStore } },
              none,
              [.sqlOpen .mysql, .ping .mysql, .sqlOpen .sqlite3, .ping .sqlite3]
                ++ queries.map Call.exec) ∧
    ∃ a1 err calls, initDatabase primaryDown NewApp = some (a1, err, calls) ∧
      err = none ∧ ∃ db1, a1.db = some db1 ∧ db1.driverName = .sqlite3 := by
  refine ⟨rfl, rfl, ?_⟩
  obtain ⟨a1, err, calls, h, -, h3, h4⟩ :=
    initDatabase_connection_selection primaryDown NewApp rfl
  obtain ⟨-, -, h5⟩ := h3 (by decide)
  obtain ⟨db1, tl, hdb, hdrv, -, -⟩ := h5 rfl rfl
  refine ⟨a1, err, calls, h, ?_, db1, hdb, hdrv⟩
  by_contra hne
  have := h4.mp hne
  simp [primaryDown] at this

/-! ## Order status updates -/

/-- What `UpdateOrderStatus` does on a connection that has an `orders` table:
the rows after the writes it attempts, and the error of the last write. -/
theorem UpdateOrderStatus_eq (env : UpdateEnv) (a : App) (db : DB) (rows : List OrderRow)
    (orderID : Int) (status : String)
    (hdb : a.db = some db) (hrows : db.store.orders = some rows) :
    UpdateOrderStatus env a orderID status =
      if status = "completed" then
        some (a.withOrders db
                (rowsAfterStamp env (rowsAfterStatus env rows orderID status) orderID),
              env.stampErr)
      else
        some (a.withOrders db (rowsAfterStatus env rows orderID status), env.statusErr) := by
  obtain ⟨dbs, settings, lang⟩ := a
  obtain ⟨drv, st⟩ := db
  obtain ⟨s1, s2, s3, s4, s5, s6, s7, s8⟩ := st
  simp only at hdb hrows
  subst hdb hrows
  unfold UpdateOrderStatus
  cases h1 : env.statusErr <;> cases h2 : env.stampErr <;> by_cases hs : status = "completed" <;>
    simp [DB.Exec, Store.exec, errOf, hs, App.withOrders, rowsAfterStamp, rowsAfterStatus, h1, h2]

/-- C5: completing an existing order.  When both writes succeed,
`UpdateOrderStatus id "completed"` returns nil, the order with that id ends with
status "completed" and a non-null `completed_at`, every other column of it is
as before, every other row is as before, and nothing else in the application
or the store changes. -/
theorem UpdateOrderStatus_completed (env : UpdateEnv) (a : App) (db : DB)
    (rows : List OrderRow) (orderID : Int) (r : OrderRow)
    (hdb : a.db = some db) (hrows : db.store.orders = some rows)
    (hr : r ∈ rows) (hid : r.id = orderID)
    (h1 : env.statusErr = none) (h2 : env.stampErr = none) :
    ∃ rows1,
      UpdateOrderStatus env a orderID "completed" = some (a.withOrders db rows1, none) ∧
      List.Forall₂
        (fun old new =>
          if old.id = orderID then
            new.status = some "completed" ∧ new.completed_at ≠ none ∧
            new = { old with status := new.status, completed_at := new.completed_at }
          else new = old)
        rows rows1 ∧
      ∃ new ∈ rows1,
        new.id = orderID ∧ new.status = some "completed" ∧ new.completed_at ≠ none := by
  refine ⟨updateCompletedAtWhere (updateStatusWhere rows "completed" orderID) env.sqlNow
    orderID, ?_, ?_, ?_⟩
  · rw [UpdateOrderStatus_eq env a db rows orderID "completed" hdb hrows]
    simp [rowsAfterStamp, rowsAfterStatus, h1, h2]
  · simp only [updateCompletedAtWhere, updateStatusWhere, List.map_map,
      List.forall₂_map_right_iff, List.forall₂_same]
    intro x hx
    by_cases hxi : x.id = orderID <;> simp [hxi]
  · refine ⟨{ r with status := some "completed", completed_at := some env.sqlNow }, ?_,
      hid, rfl, by simp⟩
    simp only [updateCompletedAtWhere, updateStatusWhere, List.map_map, List.mem_map]
    exact ⟨r, hr, by simp [hid]⟩

/-- Instance of C5 on the store holding the single pending order 1. -/
theorem UpdateOrderStatus_completed_witness :
    ∃ rows1,
      UpdateOrderStatus updateOk (appWithOrders [pendingOrder]) 1 "completed"
        = some ((appWithOrders [pendingOrder]).withOrders (dbWithOrders [pendingOrder]) rows1,
                none) ∧
      List.Forall₂
        (fun old new =>
          if old.id = 1 then
            new.status = some "completed" ∧ new.completed_at ≠ none ∧
            new = { old with status := new.status, completed_at := new.completed_at }
          else new = old)
        [pendingOrder] rows1 ∧
      ∃ new ∈ rows1, new.id = 1 ∧ new.status = some "completed" ∧ new.completed_at ≠ none :=
  UpdateOrderStatus_completed updateOk (appWithOrders [pendingOrder]) _ [pendingOrder] 1
    pendingOrder rfl rfl (by simp) rfl rfl rfl

theorem updateStatusWhere_cancelled_at (rows : List OrderRow) (status : String) (id : Int) :
    (updateStatusWhere rows status id).map (fun r => r.cancelled_at)
      = rows.map (fun r => r.cancelled_at) := by
  simp only [updateStatusWhere, List.map_map]
  apply List.map_congr_left
  intro x _
  by_cases h : x.id = id <;> simp [h]

theorem updateCompletedAtWhere_cancelled_at (rows : List OrderRow) (now : Timestamp)
    (id : Int) :
    (updateCompletedAtWhere rows now id).map (fun r => r.cancelled_at)
      = rows.map (fun r => r.cancelled_at) := by
  simp only [updateCompletedAtWhere, List.map_map]
  apply List.map_congr_left
  intro x _
  by_cases h : x.id = id <;> simp [h]

/-- No call of `UpdateOrderStatus` writes `cancelled_at`: whatever the status
and whatever the writes report, the column holds the values it held before. -/
theorem UpdateOrderStatus_keeps_cancelled_at (env : UpdateEnv) (a : App) (db : DB)
    (rows : List OrderRow) (orderID : Int) (status : String)
    (hdb : a.db = some db) (hrows : db.store.orders = some rows) :
    ∃ rows1 err,
      UpdateOrderStatus env a orderID status = some (a.withOrders db rows1, err) ∧
      rows1.map (fun r => r.cancelled_at) = rows.map (fun r => r.cancelled_at) := by
  have hA : (rowsAfterStatus env rows orderID status).map (fun r => r.cancelled_at)
      = rows.map (fun r => r.cancelled_at) := by
    unfold rowsAfterStatus
    split
    · exact updateStatusWhere_cancelled_at rows status orderID
    · rfl
  have hB : (rowsAfterStamp env (rowsAfterStatus env rows orderID status) orderID).map
      (fun r => r.cancelled_at) = rows.map (fun r => r.cancelled_at) := by
    unfold rowsAfterStamp
    split
    · rw [updateCompletedAtWhere_cancelled_at, hA]
    · exact hA
  rw [UpdateOrderStatus_eq env a db rows orderID status hdb hrows]
  by_cases hs : status = "completed"
  · exact ⟨_, _, by rw [if_pos hs], hB⟩
  · exact ⟨_, _, by rw [if_neg hs], hA⟩

/-- C6 (code defect): cancelling the pending order 1, whose `completed_at` and
`cancelled_at` are null, succeeds and sets its status, but `cancelled_at` is
still null afterwards (`completed_at` is null as well). -/
theorem UpdateOrderStatus_cancelled_leaves_cancelled_at_null :
    pendingOrder.completed_at = none ∧ pendingOrder.cancelled_at = none ∧
    UpdateOrderStatus updateOk (appWithOrders [pendingOrder]) 1 "cancelled"
      = some (appWithOrders [{ pendingOrder with status := some "cancelled" }], none) ∧
    ({ pendingOrder with status := some "cancelled" } : OrderRow).cancelled_at = none ∧
    ({ pendingOrder with status := some "cancelled" } : OrderRow).completed_at = none :=
  ⟨rfl, rfl, rfl, rfl, rfl⟩

/-- What a `CreateOrder` call that returns a nil error has done: one row with
status "pending" and no `completed_at` was appended. -/
theorem CreateOrder_ok (env : CreateEnv) (a a1 : App) (orderData : String) (id : Int)
    (db : DB) (rows : List OrderRow)
    (hdb : a.db = some db) (hrows : db.store.orders = some rows)
    (h : CreateOrder env a orderData = some (a1, id, none)) :
    a1 = a.withOrders { db with store := { db.store with ordersSeq := id } }
      (rows ++ [newOrderRow id ("ORD-" ++ toString env.unixNow) "pending" env.sqlNow]) := by
  unfold CreateOrder at h
  rw [hdb] at h
  cases he : env.execErr with
  | some e => simp [DB.Exec, he] at h
  | none =>
    by_cases hfull : maxRowId < nextOrderId rows db.store.ordersSeq
    · simp [DB.Exec, he, Store.exec, hrows, hfull] at h
    by_cases hany :
        (rows.any fun r => r.order_number == "ORD-" ++ toString env.unixNow) = true
    · simp [DB.Exec, he, Store.exec, hrows, hfull, hany] at h
    · simp only [DB.Exec, he, Store.exec, hrows, hfull, hany, Bool.false_eq_true, if_false,
        Option.some.injEq, Prod.mk.injEq, and_true] at h
      obtain ⟨h1, h2⟩ := h
      subst h2
      rw [← h1]
      rfl

theorem Reachable_inv (a : App) (h : Reachable a) :
    ∃ db rows, a.db = some db ∧ db.store.orders = some rows ∧
      ∀ r ∈ rows, r.status = some "completed" → r.completed_at ≠ none := by
  induction h with
  | start a db hdb hrows => exact ⟨db, [], hdb, hrows, by simp⟩
  | create env a a1 orderData id _ hcall ih =>
    obtain ⟨db, rows, hdb, hrows, hinv⟩ := ih
    have := CreateOrder_ok env a a1 orderData id db rows hdb hrows hcall
    subst this
    refine ⟨_, _, rfl, rfl, ?_⟩
    intro r hr hs
    rcases List.mem_append.mp hr with hr | hr
    · exact hinv r hr hs
    · simp only [List.mem_singleton] at hr
      subst hr
      simp [newOrderRow] at hs
  | update env a a1 orderID status _ hcall ih =>
    obtain ⟨db, rows, hdb, hrows, hinv⟩ := ih
    rw [UpdateOrderStatus_eq env a db rows orderID status hdb hrows] at hcall
    have hA : ∀ r ∈ rowsAfterStatus env rows orderID status,
        r ∈ rows ∨ (r.id = orderID ∧ r.status = some status) := by
      intro r hr
      unfold rowsAfterStatus at hr
      split at hr
      · simp only [updateStatusWhere, List.mem_map] at hr
        obtain ⟨x, hx, rfl⟩ := hr
        by_cases hxi : x.id = orderID
        · right; simp [hxi]
        · left; simpa [hxi] using hx
      · exact Or.inl hr
    by_cases hs : status = "completed"
    · rw [if_pos hs] at hcall
      simp only [Option.some.injEq, Prod.mk.injEq] at hcall
      obtain ⟨ha1, hstamp⟩ := hcall
      subst ha1
      refine ⟨_, _, rfl, rfl, ?_⟩
      intro r hr hsr
      simp only [rowsAfterStamp, hstamp, if_true, updateCompletedAtWhere, List.mem_map] at hr
      obtain ⟨x, hx, rfl⟩ := hr
      by_cases hxi : x.id = orderID
      · simp [hxi]
      · simp only [hxi, if_false] at hsr ⊢
        rcases hA x hx with hx1 | ⟨hx1, -⟩
        · exact hinv x hx1 hsr
        · exact absurd hx1 hxi
    · rw [if_neg hs] at hcall
      simp only [Option.some.injEq, Prod.mk.injEq] at hcall
      obtain ⟨ha1, -⟩ := hcall
      subst ha1
      refine ⟨_, _, rfl, rfl, ?_⟩
      intro r hr hsr
      rcases hA r hr with hr1 | ⟨-, hr1⟩
      · exact hinv r hr1 hsr
      · rw [hr1] at hsr
        simp only [Option.some.injEq] at hsr
        exact absurd hsr hs

theorem reachable_pending : Reachable (appWithOrders [pendingOrder]) :=
  Reachable.create createOk (appWithOrders []) _ "" 1
    (Reachable.start _ (dbWithOrders []) rfl rfl) rfl

theorem reachable_completed : Reachable (appWithOrders [completedOrder]) :=
  Reachable.update updateOk (appWithOrders [pendingOrder]) _ 1 "completed"
    reachable_pending rfl

theorem reachable_reopened : Reachable (appWithOrders [reopenedOrder]) :=
  Reachable.update updateOk (appWithOrders [completedOrder]) _ 1 "pending"
    reachable_completed rfl

/-- C7 (counterexample): create an order, complete it, then set its status to
"pending".  All three calls succeed, and the resulting order has `completed_at`
set although its status is not "completed". -/
theorem completed_at_outlives_completed_status :
    ∃ a, Reachable a ∧ ∃ db rows r, a.db = some db ∧ db.store.orders = some rows ∧
      r ∈ rows ∧ ¬ (r.completed_at ≠ none ↔ r.status = some "completed") := by
  refine ⟨appWithOrders [reopenedOrder], reachable_reopened, dbWithOrders [reopenedOrder],
    [reopenedOrder], reopenedOrder, rfl, rfl, by simp, ?_⟩
  simp [reopenedOrder, pendingOrder, newOrderRow]

/-- C7 (amended): in every state reachable from an empty `orders` table by
successful `CreateOrder` and `UpdateOrderStatus` calls with arbitrary status
strings, every order whose status is "completed" has `completed_at` set. -/
theorem completed_status_has_completed_at (a : App) (h : Reachable a) (db : DB)
    (rows : List OrderRow) (hdb : a.db = some db) (hrows : db.store.orders = some rows)
    (r : OrderRow) (hr : r ∈ rows) (hs : r.status = some "completed") :
    r.completed_at ≠ none := by
  obtain ⟨db1, rows1, hdb1, hrows1, hinv⟩ := Reachable_inv a h
  rw [hdb] at hdb1
  simp only [Option.some.injEq] at hdb1
  subst hdb1
  rw [hrows] at hrows1
  simp only [Option.some.injEq] at hrows1
  subst hrows1
  exact hinv r hr hs

/-- Instance of the amended C7 on the state reached by creating order 1 and
completing it. -/
theorem completed_status_has_completed_at_witness :
    Reachable (appWithOrders [completedOrder]) ∧
    completedOrder.status = some "completed" ∧ completedOrder.completed_at ≠ none :=
  ⟨reachable_completed, rfl,
   completed_status_has_completed_at (appWithOrders [completedOrder]) reachable_completed
     (dbWithOrders [completedOrder]) [completedOrder] rfl rfl completedOrder (by simp) rfl⟩

/-- C8 (counterexample): no order has id 99, the status write succeeds, and
`UpdateOrderStatus` returns nil, not an error; the table is unchanged. -/
theorem UpdateOrderStatus_missing_id_returns_nil :
    (∀ r ∈ [pendingOrder], r.id ≠ 99) ∧
    UpdateOrderStatus updateOk (appWithOrders [pendingOrder]) 99 "ready"
      = some (appWithOrders [pendingOrder], none) := by
  refine ⟨?_, rfl⟩
  intro r hr
  simp only [List.mem_singleton] at hr
  subst hr
  decide

theorem updateStatusWhere_no_match (rows : List OrderRow) (status : String) (id : Int)
    (h : ∀ r ∈ rows, r.id ≠ id) : updateStatusWhere rows status id = rows := by
  unfold updateStatusWhere
  conv_rhs => rw [← List.map_id rows]
  apply List.map_congr_left
  intro x hx
  simp [h x hx]

theorem updateCompletedAtWhere_no_match (rows : List OrderRow) (now : Timestamp) (id : Int)
    (h : ∀ r ∈ rows, r.id ≠ id) : updateCompletedAtWhere rows now id = rows := by
  unfold updateCompletedAtWhere
  conv_rhs => rw [← List.map_id rows]
  apply List.map_congr_left
  intro x hx
  simp [h x hx]

theorem App.withOrders_same (a : App) (db : DB) (rows : List OrderRow)
    (hdb : a.db = some db) (hrows : db.store.orders = some rows) :
    a.withOrders db rows = a := by
  obtain ⟨dbs, settings, lang⟩ := a
  obtain ⟨drv, st⟩ := db
  obtain ⟨s1, s2, s3, s4, s5, s6, s7, s8⟩ := st
  simp only at hdb hrows
  subst hdb hrows
  rfl

/-- C8 (amended): for an order id that matches no row of the `orders` table,
`UpdateOrderStatus` leaves the application and the table exactly as they were
for every status string, and it returns nil whenever the store reports no
failure for the writes; no not-found error exists. -/
theorem UpdateOrderStatus_missing_id (env : UpdateEnv) (a : App) (db : DB)
    (rows : List OrderRow) (orderID : Int) (status : String)
    (hdb : a.db = some db) (hrows : db.store.orders = some rows)
    (hmiss : ∀ r ∈ rows, r.id ≠ orderID) :
    (∃ err, UpdateOrderStatus env a orderID status = some (a, err)) ∧
    (env.statusErr = none → env.stampErr = none →
      UpdateOrderStatus env a orderID status = some (a, none)) := by
  have hA : rowsAfterStatus env rows orderID status = rows := by
    unfold rowsAfterStatus
    split
    · exact updateStatusWhere_no_match rows status orderID hmiss
    · rfl
  have hB : rowsAfterStamp env rows orderID = rows := by
    unfold rowsAfterStamp
    split
    · exact updateCompletedAtWhere_no_match rows env.sqlNow orderID hmiss
    · rfl
  rw [UpdateOrderStatus_eq env a db rows orderID status hdb hrows, hA, hB,
    App.withOrders_same a db rows hdb hrows]
  by_cases hs : status = "completed"
  · simp only [if_pos hs]
    exact ⟨⟨_, rfl⟩, fun _ h2 => by rw [h2]⟩
  · simp only [if_neg hs]
    exact ⟨⟨_, rfl⟩, fun h1 _ => by rw [h1]⟩

/-- Instance of the amended C8: id 99 on the store holding only order 1. -/
theorem UpdateOrderStatus_missing_id_witness :
    (∀ r ∈ [pendingOrder], r.id ≠ 99) ∧
    (∃ err, UpdateOrderStatus updateOk (appWithOrders [pendingOrder]) 99 "completed"
      = some (appWithOrders [pendingOrder], err)) ∧
    (updateOk.statusErr = none → updateOk.stampErr = none →
      UpdateOrderStatus updateOk (appWithOrders [pendingOrder]) 99 "completed"
        = some (appWithOrders [pendingOrder], none)) :=
  ⟨by decide,
   UpdateOrderStatus_missing_id updateOk (appWithOrders [pendingOrder])
     (dbWithOrders [pendingOrder]) [pendingOrder] 99 "completed" rfl rfl (by decide)⟩

/-- C9 (code defect): the status write for order 1 fails and the `completed_at`
write succeeds; `UpdateOrderStatus 1 "completed"` returns nil.  The first error
is overwritten by the result of the second write, and the order is left with
`completed_at` set and its old status. -/
theorem UpdateOrderStatus_completed_swallows_status_error :
    statusWriteFails.statusErr = some (.driver 7) ∧
    UpdateOrderStatus statusWriteFails (appWithOrders [pendingOrder]) 1 "completed"
      = some (appWithOrders [reopenedOrder], none) ∧
    reopenedOrder.status = some "pending" :=
  ⟨rfl, rfl, rfl⟩

/-- For status "completed" the value returned is the outcome of the
`completed_at` write alone, whatever the status write reported. -/
theorem UpdateOrderStatus_completed_returns_stamp_outcome (env : UpdateEnv) (a : App)
    (db : DB) (rows : List OrderRow) (orderID : Int)
    (hdb : a.db = some db) (hrows : db.store.orders = some rows) :
    ∃ a1, UpdateOrderStatus env a orderID "completed" = some (a1, env.stampErr) := by
  rw [UpdateOrderStatus_eq env a db rows orderID "completed" hdb hrows]
  exact ⟨_, by rw [if_pos rfl]⟩

/-- For every status other than "completed" the error of the status write is
what `UpdateOrderStatus` returns. -/
theorem UpdateOrderStatus_propagates_status_error (env : UpdateEnv) (a : App) (db : DB)
    (rows : List OrderRow) (orderID : Int) (status : String) (e : Error)
    (hdb : a.db = some db) (hrows : db.store.orders = some rows)
    (hs : status ≠ "completed") (hfail : env.statusErr = some e) :
    UpdateOrderStatus env a orderID status = some (a, some e) := by
  rw [UpdateOrderStatus_eq env a db rows orderID status hdb hrows, if_neg hs, hfail]
  simp [rowsAfterStatus, hfail, App.withOrders_same a db rows hdb hrows]

/-! ## Settings: update -/

/-- Property that `saveSettings` never touches the in-memory record or language. -/
theorem saveSettings_memory (env : SaveEnv) (a : App) :
    (saveSettings env a).1.settings = a.settings ∧
    (saveSettings env a).1.currentLang = a.currentLang := by
  unfold saveSettings
  repeat' split
  all_goals exact ⟨rfl, rfl⟩

/-- C10 (counterexample): the application shows the default settings; an
`UpdateSettings` with `sampleSettings` fails at the fifth write.  The call
returns an error, yet `GetSettings` and `GetLanguage` now return the new record
and language, not the prior ones. -/
theorem UpdateSettings_failure_changes_memory :
    (UpdateSettings saveFailsAtFifth defaultApp sampleSettings).2 ≠ none ∧
    GetSettings (UpdateSettings saveFailsAtFifth defaultApp sampleSettings).1
      ≠ GetSettings defaultApp ∧
    GetLanguage (UpdateSettings saveFailsAtFifth defaultApp sampleSettings).1
      ≠ GetLanguage defaultApp := by
  have h1 : GetSettings (UpdateSettings saveFailsAtFifth defaultApp sampleSettings).1
      = sampleSettings := rfl
  refine ⟨by decide, ?_, by decide⟩
  rw [h1]
  intro h
  have hn := congrArg Settings.RestaurantName h
  revert hn
  decide

/-- C10 (amended): when `UpdateSettings s` returns an error, the persisted store
behind the handle is the one from before the call, while `GetSettings` returns
`s` and `GetLanguage` returns the language of `s`: the in-memory state has been
replaced before the save and is not restored. -/
theorem UpdateSettings_failure (env : SaveEnv) (a : App) (s : Settings)
    (h : (UpdateSettings env a s).2 ≠ none) :
    (UpdateSettings env a s).1.db = a.db ∧
    GetSettings (UpdateSettings env a s).1 = s ∧
    GetLanguage (UpdateSettings env a s).1 = s.Language := by
  unfold UpdateSettings at h ⊢
  simp only at h ⊢
  obtain ⟨hs, hl⟩ := saveSettings_memory env { db := a.db, settings := s, currentLang := s.Language }
  refine ⟨?_, hs, hl⟩
  rw [saveSettings_err_unchanged env _ h]

/-- Instance of the amended C10 at the input of the counterexample. -/
theorem UpdateSettings_failure_witness :
    (UpdateSettings saveFailsAtFifth defaultApp sampleSettings).2 ≠ none ∧
    (UpdateSettings saveFailsAtFifth defaultApp sampleSettings).1.db = defaultApp.db ∧
    GetSettings (UpdateSettings saveFailsAtFifth defaultApp sampleSettings).1
      = sampleSettings ∧
    GetLanguage (UpdateSettings saveFailsAtFifth defaultApp sampleSettings).1
      = sampleSettings.Language :=
  ⟨by decide,
   UpdateSettings_failure saveFailsAtFifth defaultApp sampleSettings (by decide)⟩

/-! ## Listing orders -/

theorem foldl_appendScanned (renderTime : Timestamp → String) (rows : List OrderRow)
    (acc : List Order) :
    rows.foldl (appendScanned renderTime) acc
      = acc ++ rows.filterMap (scanOrder renderTime) := by
  induction rows generalizing acc with
  | nil => simp
  | cons r rest ih =>
    rw [List.foldl_cons, ih]
    unfold appendScanned
    cases h : scanOrder renderTime r with
    | none => simp [List.filterMap_cons, h]
    | some o => simp [List.filterMap_cons, h]

/-- A row whose `customer_name` is NULL does not scan. -/
theorem scanOrder_null_customer_name (renderTime : Timestamp → String) (r : OrderRow)
    (h : r.customer_name = none) : scanOrder renderTime r = none := by
  unfold scanOrder
  rw [h]
  cases r.type <;> cases r.status <;> cases r.subtotal <;> cases r.tax_amount <;>
    cases r.total <;> cases r.paid_amount <;> cases r.payment_status <;> rfl

theorem bind_some_imp {α β : Type} (x : Option α) (f : α → Option β) (P : β → Prop)
    (h : ∀ a, x = some a → ∀ b, f a = some b → P b) :
    ∀ b, x.bind f = some b → P b := by
  intro b hb
  cases x with
  | none => simp at hb
  | some a => exact h a rfl b hb

/-- A row that scans keeps its id. -/
theorem scanOrder_ID (renderTime : Timestamp → String) (r : OrderRow) (o : Order)
    (h : scanOrder renderTime r = some o) : o.ID = r.id := by
  revert o
  unfold scanOrder
  simp only [Option.bind_eq_bind, Option.pure_def]
  repeat (refine bind_some_imp _ _ _ (fun _ _ => ?_))
  intro o h
  simp only [Option.some.injEq] at h
  rw [← h]

/-- A row that scans keeps its status. -/
theorem scanOrder_Status (renderTime : Timestamp → String) (r : OrderRow) (o : Order)
    (h : scanOrder renderTime r = some o) :
    r.status = some o.Status := by
  revert o
  unfold scanOrder
  simp only [Option.bind_eq_bind, Option.pure_def]
  refine bind_some_imp _ _ _ (fun _ _ => ?_)
  refine bind_some_imp _ _ _ (fun st hst => ?_)
  repeat (refine bind_some_imp _ _ _ (fun _ _ => ?_))
  intro o h
  simp only [Option.some.injEq] at h
  rw [← h]
  exact hst

theorem foldl_max_id_bounds (rows : List OrderRow) (seq : Int) :
    seq ≤ rows.foldl (fun m r => max m r.id) seq ∧
    ∀ r ∈ rows, r.id ≤ rows.foldl (fun m r => max m r.id) seq := by
  induction rows generalizing seq with
  | nil => simp
  | cons x rest ih =>
    obtain ⟨h1, h2⟩ := ih (max seq x.id)
    rw [List.foldl_cons]
    refine ⟨le_trans (le_max_left _ _) h1, ?_⟩
    intro r hr
    rcases List.mem_cons.mp hr with hr | hr
    · rw [hr]
      exact le_trans (le_max_right _ _) h1
    · exact h2 r hr

/-- The id handed out next is larger than every id in the table. -/
theorem nextOrderId_gt (rows : List OrderRow) (seq : Int) (r : OrderRow) (hr : r ∈ rows) :
    r.id < nextOrderId rows seq := by
  unfold nextOrderId
  have := (foldl_max_id_bounds rows seq).2 r hr
  omega

/-- What a `CreateOrder` call that returns a nil error has found and done: the
handle and the `orders` table exist, the id is the next AUTOINCREMENT value, and
one row was appended whose text columns other than `order_number`, `type`,
`status` and `payment_status` are NULL. -/
theorem CreateOrder_ok_full (env : CreateEnv) (a a1 : App) (orderData : String) (id : Int)
    (h : CreateOrder env a orderData = some (a1, id, none)) :
    ∃ db rows, a.db = some db ∧ db.store.orders = some rows ∧
      id = nextOrderId rows db.store.ordersSeq ∧
      a1 = a.withOrders { db with store := { db.store with ordersSeq := id } }
        (rows ++ [newOrderRow id ("ORD-" ++ toString env.unixNow) "pending" env.sqlNow]) := by
  cases hdb : a.db with
  | none => simp [CreateOrder, hdb] at h
  | some db =>
    cases hrows : db.store.orders with
    | none =>
      cases he : env.execErr <;> simp [CreateOrder, hdb, DB.Exec, Store.exec, hrows, he] at h
    | some rows =>
      refine ⟨db, rows, rfl, hrows, ?_, CreateOrder_ok env a a1 orderData id db rows hdb hrows h⟩
      unfold CreateOrder at h
      rw [hdb] at h
      cases he : env.execErr with
      | some e => simp [DB.Exec, he] at h
      | none =>
        by_cases hfull : maxRowId < nextOrderId rows db.store.ordersSeq
        · simp [DB.Exec, he, Store.exec, hrows, hfull] at h
        by_cases hany :
            (rows.any fun r => r.order_number == "ORD-" ++ toString env.unixNow) = true
        · simp [DB.Exec, he, Store.exec, hrows, hfull, hany] at h
        · simp only [DB.Exec, he, Store.exec, hrows, hfull, hany, Bool.false_eq_true,
            if_false, Option.some.injEq, Prod.mk.injEq, and_true] at h
          exact h.2.symm

/-- On a connection with an `orders` table, `GetOrders` returns the scans that
succeed among the first 50 rows of the ordered query result, or the query
failure. -/
theorem GetOrders_eq (env : ListEnv) (a : App) (db : DB) (rows : List OrderRow)
    (hdb : a.db = some db) (hrows : db.store.orders = some rows) :
    GetOrders env a =
      match env.queryErr with
      | some e => some ([], some e)
      | none =>
        some ((((rows.map (fun r => { r with created_at := r.created_at.bind env.localtime })).insertionSort
                (fun r s => createdAtGe r.created_at s.created_at = true)).take 50).filterMap
                (scanOrder env.renderTime), none) := by
  unfold GetOrders
  rw [hdb]
  cases he : env.queryErr with
  | some e => simp [DB.QueryOrders]
  | none => simp [DB.QueryOrders, hrows, foldl_appendScanned]

/-- Whatever the store held before and whatever the clock and zone are, the
order a successful `CreateOrder` has just inserted is not in the result of a
following `GetOrders`: the call returns, with the outcome of its query as the
error, and no listed order carries the returned id. -/
theorem GetOrders_omits_created_order (cenv : CreateEnv) (lenv : ListEnv) (a a1 : App)
    (orderData : String) (id : Int)
    (hc : CreateOrder cenv a orderData = some (a1, id, none)) :
    ∃ orders, GetOrders lenv a1 = some (orders, lenv.queryErr) ∧ ∀ o ∈ orders, o.ID ≠ id := by
  obtain ⟨db, rows, hdb, hrows, hid, ha1⟩ := CreateOrder_ok_full cenv a a1 orderData id hc
  subst ha1
  rw [GetOrders_eq lenv _ _ _ rfl rfl]
  cases he : lenv.queryErr with
  | some e => exact ⟨[], rfl, by simp⟩
  | none =>
    refine ⟨_, rfl, ?_⟩
    intro o ho
    obtain ⟨r1, hr1, hscan⟩ := List.mem_filterMap.mp ho
    have hr2 := (List.mem_insertionSort _).mp (List.mem_of_mem_take hr1)
    obtain ⟨r, hr, rfl⟩ := List.mem_map.mp hr2
    rw [scanOrder_ID _ _ o hscan]
    rcases List.mem_append.mp hr with hr | hr
    · have := nextOrderId_gt rows db.store.ordersSeq r hr
      show r.id ≠ id
      omega
    · simp only [List.mem_singleton] at hr
      subst hr
      rw [scanOrder_null_customer_name _ _ rfl] at hscan
      simp at hscan

/-- C11 (code defect): on a fallback store with an empty `orders` table,
`CreateOrder` succeeds and returns id 1, and the following `GetOrders` succeeds
with an empty result.  The new row has NULL in `customer_name` and the other
free-text columns, its scan into the `string` fields fails, and the row is
skipped, so no order with id 1 and status "pending" is listed. -/
theorem GetOrders_skips_created_order :
    CreateOrder createOk (appWithOrders []) ""
      = some (appWithOrders [pendingOrder], 1, none) ∧
    pendingOrder.status = some "pending" ∧ pendingOrder.customer_name = none ∧
    scanOrder listOk.renderTime pendingOrder = none ∧
    GetOrders listOk (appWithOrders [pendingOrder]) = some ([], none) :=
  ⟨rfl, rfl, rfl, rfl, rfl⟩

/-- A row whose columns are all filled in is listed, next to a created one that
is not: the listing is not empty by construction. -/
theorem GetOrders_lists_filled_order :
    ∃ o, GetOrders listOk (appWithOrders [filledOrder, pendingOrder]) = some ([o], none) ∧
      o.ID = 7 ∧ o.Status = "ready" :=
  ⟨_, rfl, rfl, rfl⟩

/-- A completed order that scans is listed with `completed_at` in the form the
driver renders it, not as the stored text. -/
theorem GetOrders_renders_completed_at :
    ∃ o, GetOrders listOk (appWithOrders [filledCompletedOrder]) = some ([o], none) ∧
      o.ID = 7 ∧ o.CompletedAt = some "2023-11-14T23:00:00Z" :=
  ⟨_, rfl, rfl, rfl⟩

/-- Once the largest row id is in use, the insert of `CreateOrder` is refused:
the call returns id 0 with the error and the table is unchanged. -/
theorem CreateOrder_refused_after_last_id :
    CreateOrder createOk (appWithOrders [lastIdOrder]) ""
      = some (appWithOrders [lastIdOrder], 0, some .databaseFull) := by
  rfl

end RestaurantPos
